import Mathlib

/-!
# Verification of the memory-mcp semantic-memory engine

A shallow embedding, in Lean 4, of the core logic of the `memory-mcp`
repository (files `src/memory/manager.py` and `src/vector/store.py`),
together with proofs settling the specification's claims about it.

Modelling conventions:
* Python timestamps (`datetime` / ISO strings) are modelled as rational
  epoch seconds (`ℚ`); the code only compares them and takes differences,
  and `datetime.fromisoformat` / `isoformat` round-trip order-isomorphically.
* Confidence values are rationals; every confidence reachable in the code
  is a decimal fraction, so the `float` arithmetic of the source agrees
  with exact rational arithmetic at every comparison the code performs.
* `uuid4`-generated identifiers are nondeterministic in the source; they
  are passed in as explicit parameters (or an `ℕ → String` supply).
* File-mirroring (`_save_active_episode`, `_save_pending_entities`,
  appending to the jsonl cache) is modelled by the corresponding fields of
  the manager state: each mutation of the in-memory state is mirrored
  verbatim to the file, so the state fields stand for both.
-/

/-- Rational epoch-seconds stand for the `datetime` values of the source. -/
abbrev Time := ℚ

/-- A chat message, `manager.py` `cache_message` dict:
`{id, role, content, timestamp, episode_id}`. -/
structure Msg where
  id : String
  role : String
  content : String
  timestamp : Time
  episode_id : Option String
deriving DecidableEq

/-- The in-memory active episode dict of `manager.py` `start_episode`:
`{id, title, tags, status, created_at, entity_ids}`. -/
structure Episode where
  id : String
  title : String
  tags : List String
  status : String
  created_at : Time
  entity_ids : List String
deriving DecidableEq

/-- A metadata value: ChromaDB metadata dicts hold strings and numbers. -/
inductive MetaVal where
  | s (v : String)
  | n (v : ℚ)
deriving DecidableEq

/-- A metadata dict, modelled as an association list in insertion order. -/
abbrev Metadata := List (String × MetaVal)

/-- Look a key up in a metadata dict. -/
def meta_get (md : Metadata) (k : String) : Option MetaVal :=
  (md.find? (fun kv => kv.1 = k)).map (fun kv => kv.2)

/-- A record persisted in a ChromaDB collection: `(id, content, metadata)`.
The embedding vector attached by `VectorStore.add` is not observable by any
claim and is omitted. -/
structure Doc where
  id : String
  content : String
  meta : Metadata
deriving DecidableEq

/-- An entity candidate, `manager.py` `_detect_candidates` dict. -/
structure Candidate where
  id : String
  type : String
  extracted_content : String
  source_snippet : String
  confidence : ℚ
  status : String
  detected_at : Time
  detection_method : String
deriving DecidableEq

/-- One line of the `message_cache.jsonl` append-only log: either a parsed
message or an unparsable raw line (kept by `cleanup_old_messages`). -/
inductive CacheLine where
  | ok (m : Msg)
  | bad (raw : String)
deriving DecidableEq

/-- The mutable state of a `MemoryManager` instance: the two ChromaDB
collections, the active episode and its message buffer, the pending
candidate list, and the jsonl message log. -/
structure ManagerState where
  user_store : List Doc
  project_store : List Doc
  current_episode : Option Episode
  current_messages : List Msg
  pending_entities : List Candidate
  cache_file : List CacheLine
deriving DecidableEq

/-- `MemoryManager.USER_LEVEL_TYPES = {"Preference", "Concept", "Habit"}`. -/
def USER_LEVEL_TYPES : List String := ["Preference", "Concept", "Habit"]

/-- `MemoryManager.AUTO_CONFIRM_THRESHOLD = 0.85`. -/
def AUTO_CONFIRM_THRESHOLD : ℚ := 85 / 100

/-- `MemoryManager.STALE_EPISODE_MINUTES = 30`. -/
def STALE_EPISODE_MINUTES : ℚ := 30

/-- Python string slicing `s[:n]` (by code points, i.e. by characters). -/
def py_take (s : String) (n : ℕ) : String := String.mk (s.data.take n)

/-- `MemoryManager._generate_summary`: the episode title when there are no
messages, else the title followed by the last 5 messages, role-labelled,
each truncated to 100 characters. -/
def generate_summary (ep : Episode) (msgs : List Msg) : String :=
  if msgs = [] then ep.title
  else
    let recent := msgs.drop (msgs.length - 5)
    let parts := (ep.title ++ ":") ::
      recent.map (fun m =>
        "- " ++ (if m.role = "user" then "用户" else "助手") ++ ": " ++ py_take m.content 100)
    String.intercalate "\n" parts

/-- The metadata dict built by `MemoryManager.close_episode`. -/
def close_metadata (now : Time) (ep : Episode) (msgs : List Msg) : Metadata :=
  [("title", .s ep.title),
   ("tags", .s (String.intercalate "," ep.tags)),
   ("status", .s "completed"),
   ("entity_ids", .s (String.intercalate "," ep.entity_ids)),
   ("type", .s "Episode"),
   ("message_count", .n msgs.length),
   ("created_at", .n ep.created_at),
   ("closed_at", .n now)]

/-- `MemoryManager.close_episode`: if an episode is active, archive it as an
`Episode`-typed record in the project store (summary caller-supplied, or
generated when absent or empty — Python tests `if not summary:`) and reset
the active state. Returns the closed episode with its summary. -/
def close_episode (now : Time) (summary : Option String) (st : ManagerState) :
    ManagerState × Option (Episode × String) :=
  match st.current_episode with
  | none => (st, none)
  | some ep =>
    let s := match summary with
      | some s => if s = "" then generate_summary ep st.current_messages else s
      | none => generate_summary ep st.current_messages
    let archived : Doc := ⟨ep.id, s, close_metadata now ep st.current_messages⟩
    ({st with project_store := st.project_store ++ [archived],
              current_episode := none,
              current_messages := []},
     some (ep, s))

/-- The auto-close summary string of `MemoryManager._close_stale_episode`
(`int()` truncation agrees with `⌊·⌋` since the gap is nonnegative there). -/
def stale_summary (title : String) (stale_minutes : ℚ) : String :=
  "[自动关闭] " ++ title ++ " (闲置 " ++ toString ⌊stale_minutes⌋ ++ " 分钟后自动归档)"

/-- The `last_activity` of `_close_stale_episode`: the last message's
timestamp, or the episode's creation time when there is no message. -/
def stale_last_activity (st : ManagerState) (ep : Episode) : Time :=
  match st.current_messages.getLast? with
  | some m => m.timestamp
  | none => ep.created_at

/-- `MemoryManager._close_stale_episode`, run on construction: idle gap since
the last message (or since creation when there is none) of at least
`STALE_EPISODE_MINUTES` minutes triggers `close_episode` with an automatic
summary. -/
def close_stale_episode (now : Time) (st : ManagerState) : ManagerState :=
  match st.current_episode with
  | none => st
  | some ep =>
    let stale_minutes := (now - stale_last_activity st ep) / 60
    if STALE_EPISODE_MINUTES ≤ stale_minutes then
      (close_episode now (some (stale_summary ep.title stale_minutes)) st).1
    else st

/-- `MemoryManager.start_episode`: close any active episode first, then
install a fresh active episode with empty entity and message lists.
`fresh_id` stands for the generated `ep_<uuid4>` identifier. -/
def start_episode (now : Time) (fresh_id : String) (title : String) (tags : List String)
    (st : ManagerState) : ManagerState × Episode :=
  let st1 := if st.current_episode.isSome then (close_episode now none st).1 else st
  let ep : Episode := ⟨fresh_id, title, tags, "active", now, []⟩
  ({st1 with current_episode := some ep, current_messages := []}, ep)

/-- The metadata dict built by `MemoryManager.add_entity`. -/
def entity_metadata (now : Time) (entity_type reason : String) (related_ids : List String)
    (st : ManagerState) : Metadata :=
  [("type", .s entity_type),
   ("status", .s "active"),
   ("reason", .s reason),
   ("related_ids", .s (String.intercalate "," related_ids)),
   ("episode_id", .s (match st.current_episode with | some ep => ep.id | none => "")),
   ("created_at", .n now)]

/-- `MemoryManager.add_entity`: store an active record in the user tier when
the type is user-level (`Preference`/`Concept`/`Habit`), else in the project
tier, and link its id into the active episode's `entity_ids` when an episode
is active. `entity_id` stands for the generated `ent_<uuid4>` identifier. -/
def add_entity (now : Time) (entity_id : String) (entity_type content reason : String)
    (related_ids : List String) (st : ManagerState) : ManagerState × String :=
  let doc : Doc := ⟨entity_id, content, entity_metadata now entity_type reason related_ids st⟩
  let st1 :=
    if USER_LEVEL_TYPES.contains entity_type then
      {st with user_store := st.user_store ++ [doc]}
    else
      {st with project_store := st.project_store ++ [doc]}
  let st2 :=
    match st1.current_episode with
    | some ep =>
      let ep2 : Episode := {ep with entity_ids := ep.entity_ids ++ [entity_id]}
      {st1 with current_episode := some ep2}
    | none => st1
  (st2, entity_id)

/-- `MemoryManager.confirm_entity`: drop the candidate id from the pending
list, then add the supplied content as a fresh entity via `add_entity`. -/
def confirm_entity (now : Time) (entity_id candidate_id entity_type content : String)
    (st : ManagerState) : ManagerState × String :=
  let st1 := {st with pending_entities :=
    st.pending_entities.filter (fun p => decide (p.id ≠ candidate_id))}
  add_entity now entity_id entity_type content "" [] st1

/-- `MemoryManager.reject_candidate`: drop the candidate id from the pending
list; nothing else changes. -/
def reject_candidate (candidate_id : String) (st : ManagerState) : ManagerState :=
  {st with pending_entities :=
    st.pending_entities.filter (fun p => decide (p.id ≠ candidate_id))}

/-- The body of the `_detect_and_process_entities` loop: a candidate at
confidence `≥ AUTO_CONFIRM_THRESHOLD` is promoted immediately through
`add_entity` (the reason string `"自动确认 (置信度: %.2f)"` is produced by
`reason_fmt`, abstracting Python's float formatting); a candidate below the
threshold is appended to the pending list. -/
def process_one (now : Time) (entity_id : String) (reason_fmt : ℚ → String)
    (c : Candidate) (st : ManagerState) : ManagerState :=
  if AUTO_CONFIRM_THRESHOLD ≤ c.confidence then
    (add_entity now entity_id c.type c.extracted_content (reason_fmt c.confidence) [] st).1
  else
    {st with pending_entities := st.pending_entities ++ [c]}

/-- The `_detect_and_process_entities` loop over a candidate list; `ids k`
supplies the fresh entity id used for the `k`-th candidate. -/
def process_candidates (now : Time) (ids : ℕ → String) (reason_fmt : ℚ → String) :
    List Candidate → ℕ → ManagerState → ManagerState
  | [], _, st => st
  | c :: cs, k, st =>
    process_candidates now ids reason_fmt cs (k + 1) (process_one now (ids k) reason_fmt c st)

/-- The backtick character (code 96), written via `Char.ofNat`. -/
def backtick : Char := Char.ofNat 96

/-- Python `str.strip()` on a character list. -/
def py_strip (s : List Char) : List Char :=
  ((s.dropWhile Char.isWhitespace).reverse.dropWhile Char.isWhitespace).reverse

/-- Python `str.strip()` on a string. -/
def strip_s (s : String) : String := String.mk (py_strip s.data)

/-- Substring test on character lists (Python's `needle in hay`). -/
def contains_sub (hay needle : List Char) : Bool :=
  (List.range (hay.length + 1)).any (fun i => needle.isPrefixOf (hay.drop i))

/-- Python's `needle in hay` on strings. -/
def substr_in (needle hay : String) : Bool := contains_sub hay.data needle.data

/-- Python `str.lower()` (the inputs the claims evaluate are ASCII/Chinese,
on which `Char.toLower` agrees with Python). -/
def lower (s : String) : String := String.mk (s.data.map Char.toLower)

/-- Replacement text of the fenced-code-block substitution in
`_clean_content`. -/
def fence_placeholder : List Char := "[代码块已省略]".data

/-- Replacement text of the inline-code substitution in `_clean_content`. -/
def inline_placeholder : List Char := "[代码]".data

/-- The truncation marker `"...[已截断]"` appended by `_clean_content`. -/
def trunc_marker : List Char := "...[已截断]".data

/-- A regex `\w` character (ASCII approximation: letters, digits,
underscore — the language tags appearing after a code fence). -/
def is_word_char (c : Char) : Bool := c.isAlphanum || c = '_'

/-- Whether a character list starts with three backticks. -/
def starts_triple (s : List Char) : Bool :=
  match s with
  | a :: b :: c :: _ => decide (a = backtick ∧ b = backtick ∧ c = backtick)
  | _ => false

/-- Remainder after the first occurrence of three consecutive backticks
(the lazy `[\s\S]*?` of the fence regex stops at the first closing fence). -/
def split_at_triple : ℕ → List Char → Option (List Char)
  | 0, _ => none
  | _ + 1, [] => none
  | fuel + 1, c :: rest =>
    if starts_triple (c :: rest) then some ((c :: rest).drop 3)
    else split_at_triple fuel rest

/-- Try to match the fence regex `` ```[\w]*\n[\s\S]*?``` `` at the head of
`s`; on success return the remainder after the match. -/
def try_fence (s : List Char) : Option (List Char) :=
  if starts_triple s then
    let rest := s.drop 3
    let w := rest.dropWhile is_word_char
    match w with
    | '\n' :: body => split_at_triple (body.length + 1) body
    | _ => none
  else none

/-- `re.sub(r'```[\w]*\n[\s\S]*?```', '[代码块已省略]', ·)`: leftmost,
non-overlapping; on failure the scan advances one character. -/
def remove_fences_aux : ℕ → List Char → List Char
  | 0, s => s
  | _ + 1, [] => []
  | fuel + 1, c :: rest =>
    match try_fence (c :: rest) with
    | some after => fence_placeholder ++ remove_fences_aux fuel after
    | none => c :: remove_fences_aux fuel rest

/-- `re.sub(r'`[^`]+`', '[代码]', ·)`: a backtick followed by a nonempty
backtick-free run and a closing backtick is replaced; leftmost,
non-overlapping. -/
def remove_inline_aux : ℕ → List Char → List Char
  | 0, s => s
  | _ + 1, [] => []
  | fuel + 1, c :: rest =>
    if c = backtick then
      let pre := rest.takeWhile (fun x => decide (x ≠ backtick))
      let post := rest.dropWhile (fun x => decide (x ≠ backtick))
      match post, pre with
      | _ :: after, _ :: _ => inline_placeholder ++ remove_inline_aux fuel after
      | _, _ => c :: remove_inline_aux fuel rest
    else c :: remove_inline_aux fuel rest

/-- `MemoryManager._clean_content`: strip fenced code blocks, then inline
code, truncate to `max_length` characters plus the truncation marker, and
finally `strip()` the result. -/
def clean_content (content : String) (max_length : ℕ := 2000) : String :=
  let c1 := remove_fences_aux content.data.length content.data
  let c2 := remove_inline_aux c1.length c1
  let c3 := if max_length < c2.length then c2.take max_length ++ trunc_marker else c2
  String.mk (py_strip c3)

/-- One entry of `MemoryManager.DETECTION_RULES`: ordered regex patterns,
keywords, and the rule's base confidence. -/
structure Rule where
  patterns : List String
  keywords : List String
  min_confidence : ℚ
deriving DecidableEq

/-- The second `Concept` pattern of `DETECTION_RULES` (needed by name by the
counterexample matcher below). -/
def concept_pattern_2 : String := "(?:什么是|解释一下)(.{2,20})"

/-- The `Decision` entry of `DETECTION_RULES`. -/
def decision_rule : Rule :=
  ⟨["(?:我|我们)?(?:决定|确定|选择|采用|使用)(?:了)?(.{5,50}?)(?:方案|方式|方法|来|作为|进行)?",
    "(?:最终|最后)?(?:选择|采用|决定)(?:了)?(.{5,50})",
    "(.{5,30}?)(?:是|作为)(?:最佳|最好|更好的)?(?:选择|方案)"],
   ["决定", "采用", "选择", "确定使用", "决策", "敲定"], 7/10⟩

/-- The `Architecture` entry of `DETECTION_RULES`. -/
def architecture_rule : Rule :=
  ⟨["(?:采用|使用|基于)(.{5,50}?)(?:架构|设计|模式|结构)",
    "(?:架构|设计|结构)(?:是|为|采用)(.{5,50})",
    "(.{5,30}?)(?:分层|模块化|微服务|单体)"],
   ["架构", "设计模式", "分层", "模块", "组件结构"], 7/10⟩

/-- The `Preference` entry of `DETECTION_RULES`. -/
def preference_rule : Rule :=
  ⟨["(?:我|用户)?(?:喜欢|偏好|倾向于|更愿意)(.{5,50})",
    "(?:prefer|偏好)(?:使用|用)?(.{5,50})"],
   ["喜欢", "偏好", "倾向于", "prefer", "更喜欢"], 6/10⟩

/-- The `Concept` entry of `DETECTION_RULES`. -/
def concept_rule : Rule :=
  ⟨["(.{2,20}?)(?:是指|是什么|的意思是|定义为)(.{10,100})",
    concept_pattern_2,
    "我是(.{2,20}?)(?:，|,|。|$)",
    "我叫(.{2,10})",
    "我的名字是(.{2,10})",
    "(?:我|用户)是(.{2,30}?)(?:的|，|,|。|$)"],
   ["是什么", "什么是", "意思是", "定义", "概念", "解释", "我是", "我叫"], 5/10⟩

/-- The `Habit` entry of `DETECTION_RULES`. -/
def habit_rule : Rule :=
  ⟨["(?:我|用户)?(?:习惯|总是|一般会|通常|每次都)(.{5,50})"],
   ["习惯", "总是", "一般会", "通常", "每次都"], 6/10⟩

/-- The `File` entry of `DETECTION_RULES`. -/
def file_rule : Rule :=
  ⟨["(.{5,50}\\.(?:ts|js|vue|py|java|go))(?:文件)?(?:负责|处理|实现|包含)(.{5,50})",
    "(?:在|修改|创建|查看)(.{5,50}\\.(?:ts|js|vue|py|java|go))"],
   [".ts", ".js", ".vue", ".py", "文件负责", "文件处理"], 8/10⟩

/-- `MemoryManager.DETECTION_RULES`, verbatim, in dict insertion order.
Pattern strings carry the Python regex sources; matching itself is
abstracted by a `Matcher` oracle. -/
def DETECTION_RULES : List (String × Rule) :=
  [("Decision", decision_rule),
   ("Architecture", architecture_rule),
   ("Preference", preference_rule),
   ("Concept", concept_rule),
   ("Habit", habit_rule),
   ("File", file_rule)]

/-- A regex-matching oracle standing for `re.findall(pattern, content,
re.IGNORECASE)`: for a pattern source and a content string it returns the
matches, each as the list of its capture-group strings (an unmatched group
is `""`; a single-group `findall` result string is a singleton list). -/
abbrev Matcher := String → String → List (List String)

/-- Content extracted from one `findall` match in `_detect_candidates`:
the non-empty capture groups joined by `" "`, then stripped (for a
single-group match Python strips the string directly — same result). -/
def extracted_of (groups : List String) : String :=
  strip_s (String.intercalate " " (groups.filter (fun g => decide (g ≠ ""))))

/-- Accumulator of the `_detect_candidates` pass: the candidate list, the
`detected_contents` dedup set (as a list), and the position in the
candidate-id supply. -/
structure DetectAcc where
  cands : List Candidate
  detected : List String
  k : ℕ

/-- Processing of one `findall` match in the pattern loop of
`_detect_candidates`: a nonempty extraction longer than 3 characters and
not previously extracted becomes a pattern candidate at
`min_confidence + 0.2`, content truncated to 200 characters. -/
def pattern_step (ids : ℕ → String) (now : Time) (content tname : String) (conf : ℚ)
    (groups : List String) (acc : DetectAcc) : DetectAcc :=
  let extracted := extracted_of groups
  if extracted ≠ "" ∧ 3 < extracted.length ∧ extracted ∉ acc.detected then
    { cands := acc.cands ++ [⟨ids acc.k, tname, py_take extracted 200, py_take content 300,
        conf + 1/5, "pending", now, "pattern"⟩],
      detected := acc.detected ++ [extracted],
      k := acc.k + 1 }
  else acc

/-- The inner `for match in re.findall(...)` loop. -/
def run_matches (ids : ℕ → String) (now : Time) (content tname : String) (conf : ℚ) :
    List (List String) → DetectAcc → DetectAcc
  | [], acc => acc
  | g :: gs, acc =>
    run_matches ids now content tname conf gs (pattern_step ids now content tname conf g acc)

/-- The `for pattern in rules["patterns"]` loop (the oracle never raises, so
the `except re.error: continue` branch is dead). -/
def run_patterns (m : Matcher) (ids : ℕ → String) (now : Time) (content tname : String)
    (conf : ℚ) : List String → DetectAcc → DetectAcc
  | [], acc => acc
  | p :: ps, acc =>
    run_patterns m ids now content tname conf ps
      (run_matches ids now content tname conf (m p content) acc)

/-- Characters `。 ！ ？ \n` on which `_detect_candidates` splits sentences. -/
def is_sentence_sep (c : Char) : Bool := decide (c = '。' ∨ c = '！' ∨ c = '？' ∨ c = '\n')

/-- `re.split(r'[。！？\n]', content)` (empty segments kept). -/
def split_chars : List Char → List Char → List String
  | [], cur => [String.mk cur.reverse]
  | c :: rest, cur =>
    if is_sentence_sep c then String.mk cur.reverse :: split_chars rest []
    else split_chars rest (c :: cur)

/-- Sentence splitting of `_detect_candidates`. -/
def split_sentences (content : String) : List String := split_chars content.data []

/-- The keyword fallback of `_detect_candidates`: if some keyword of the
rule occurs in the content and no candidate of this type exists yet, the
first sentence containing a keyword and longer than 5 characters (if not
already extracted) becomes one keyword candidate at `min_confidence`. -/
def keyword_phase (ids : ℕ → String) (now : Time) (content tname : String) (r : Rule)
    (acc : DetectAcc) : DetectAcc :=
  if r.keywords.any (fun kw => substr_in kw content) then
    if tname ∈ acc.cands.map Candidate.type then acc
    else
      match (split_sentences content).find? (fun s =>
          r.keywords.any (fun kw => substr_in kw s) && decide (5 < s.length)) with
      | some s =>
        if s ∈ acc.detected then acc
        else
          { cands := acc.cands ++ [⟨ids acc.k, tname, py_take s 200, py_take content 300,
              r.min_confidence, "pending", now, "keyword"⟩],
            detected := acc.detected ++ [s],
            k := acc.k + 1 }
      | none => acc
  else acc

/-- Processing of one entity type in `_detect_candidates`: the pattern loop,
then the keyword fallback. -/
def process_type (m : Matcher) (ids : ℕ → String) (now : Time) (content : String)
    (tr : String × Rule) (acc : DetectAcc) : DetectAcc :=
  keyword_phase ids now content tr.1 tr.2
    (run_patterns m ids now content tr.1 tr.2.min_confidence tr.2.patterns acc)

/-- The `for entity_type, rules in DETECTION_RULES.items()` loop. -/
def run_rules (m : Matcher) (ids : ℕ → String) (now : Time) (content : String) :
    List (String × Rule) → DetectAcc → DetectAcc
  | [], acc => acc
  | tr :: trs, acc => run_rules m ids now content trs (process_type m ids now content tr acc)

/-- `MemoryManager._detect_candidates`. -/
def detect_candidates (m : Matcher) (ids : ℕ → String) (now : Time) (content : String) :
    List Candidate :=
  (run_rules m ids now content DETECTION_RULES ⟨[], [], 0⟩).cands

/-- `MemoryManager._detect_and_process_entities`. -/
def detect_and_process (now : Time) (cand_ids ent_ids : ℕ → String) (reason_fmt : ℚ → String)
    (m : Matcher) (content : String) (st : ManagerState) : ManagerState :=
  process_candidates now ent_ids reason_fmt (detect_candidates m cand_ids now content) 0 st

/-- `MemoryManager.cache_message`: clean the content, append the message to
the jsonl log and the in-memory buffer, and run entity detection on the raw
content for user-authored messages only. -/
def cache_message (now : Time) (mid : String) (cand_ids ent_ids : ℕ → String)
    (reason_fmt : ℚ → String) (m : Matcher) (role content : String) (st : ManagerState) :
    ManagerState × Msg :=
  let cleaned := clean_content content
  let msg : Msg := ⟨mid, role, cleaned, now, st.current_episode.map Episode.id⟩
  let st1 := {st with cache_file := st.cache_file ++ [.ok msg],
                      current_messages := st.current_messages ++ [msg]}
  let st2 :=
    if role = "user" then detect_and_process now cand_ids ent_ids reason_fmt m content st1
    else st1
  (st2, msg)

/-- `MemoryManager.cleanup_old_messages`: drop every parsed cache line whose
timestamp is at or before `now - days·24·3600`; unparsable lines are kept.
Returns the rewritten log together with the removed count. -/
def cleanup_old_messages (now : Time) (days : ℕ) (cache : List CacheLine) :
    List CacheLine × ℕ :=
  let cutoff : ℚ := now - days * 24 * 3600
  let kept := cache.filter (fun l => match l with
    | .ok m => decide (cutoff < m.timestamp)
    | .bad _ => true)
  let removed := cache.countP (fun l => match l with
    | .ok m => decide (m.timestamp ≤ cutoff)
    | .bad _ => false)
  (kept, removed)

/-- Python `str.split()` (split on whitespace runs, no empty parts). -/
def split_ws_chars : List Char → List Char → List String
  | [], cur => if cur = [] then [] else [String.mk cur.reverse]
  | c :: rest, cur =>
    if c.isWhitespace then
      if cur = [] then split_ws_chars rest []
      else String.mk cur.reverse :: split_ws_chars rest []
    else split_ws_chars rest (c :: cur)

/-- Python `query.split()`. -/
def split_ws (s : String) : List String := split_ws_chars s.data []

/-- The keyword list of `VectorStore._keyword_search`:
`[w.strip() for w in query.split() if len(w.strip()) >= 2]`. -/
def kw_tokens (query : String) : List String :=
  ((split_ws query).map strip_s).filter (fun w => decide (2 ≤ w.length))

/-- The match score of `_keyword_search`:
`sum(1 for kw in keywords if kw.lower() in content.lower())` — the number
of keyword-list entries occurring in the content. -/
def kw_score (keywords : List String) (content : String) : ℕ :=
  (keywords.filter (fun kw => substr_in (lower kw) (lower content))).length

/-- A document paired with its `_score` field. -/
structure SItem where
  doc : Doc
  score : ℕ
deriving DecidableEq

/-- The descending-score order used to sort scored items. -/
def sitem_ge (a b : SItem) : Prop := b.score ≤ a.score

instance : DecidableRel sitem_ge := fun a b => Nat.decLe b.score a.score

instance : IsTotal SItem sitem_ge := ⟨fun a b => Nat.le_total b.score a.score⟩

instance : IsTrans SItem sitem_ge := ⟨fun _ _ _ h1 h2 => Nat.le_trans h2 h1⟩

/-- `VectorStore._keyword_search` on a given candidate pool (the pool stands
for `collection.get(where=where, limit=top_k*10)`): score each candidate,
keep positive scores (or everything when there are no usable keywords),
sort by score descending and truncate to `top_k`, dropping the score field.
Python's `list.sort` is stable, and any stable sort under the same key
produces the same list, so the stable `insertionSort` below computes the
same result. -/
def kw_filter_score (keywords : List String) (docs : List Doc) : List SItem :=
  docs.filterMap (fun d =>
    if 0 < kw_score keywords d.content ∨ keywords = [] then
      some ⟨d, kw_score keywords d.content⟩
    else none)

/-- `VectorStore._keyword_search` (continued): sort the scored candidates
by `_score` descending (stably) and return the first `top_k`, dropping the
internal score field. -/
def keyword_search (query : String) (docs : List Doc) (top_k : ℕ) : List Doc :=
  ((List.insertionSort sitem_ge (kw_filter_score (kw_tokens query) docs)).take top_k).map
    SItem.doc

/-- Number of (possibly overlapping) occurrences of `needle` in `hay`. -/
def count_occurrences (hay needle : List Char) : ℕ :=
  ((List.range (hay.length + 1)).filter (fun i => needle.isPrefixOf (hay.drop i))).length

/-- Modelled from the claim's words, not from the source: scoring by "the
count of case-insensitive token occurrences" (each token counted with its
multiplicity in the content). -/
def occ_score (keywords : List String) (content : String) : ℕ :=
  (keywords.map (fun kw => count_occurrences (lower content).data (lower kw).data)).sum

/-- Modelled from the claim's words, not from the source: the keyword
fallback with occurrence-count scoring, otherwise identical pipeline. -/
def keyword_search_by_occurrences (query : String) (docs : List Doc) (top_k : ℕ) : List Doc :=
  ((List.insertionSort sitem_ge (docs.filterMap (fun d =>
      if 0 < occ_score (kw_tokens query) d.content ∨ kw_tokens query = [] then
        some ⟨d, occ_score (kw_tokens query) d.content⟩
      else none))).take top_k).map SItem.doc

/-- Outcome of the backing `collection.query` call in `_vector_search`:
either the formatted nearest-neighbour items or a raised error message. -/
inductive QueryOutcome where
  | ok (items : List Doc)
  | err (msg : String)

/-- The index-integrity test of `_vector_search`:
`"Error finding id" in error_msg or "finding id" in error_msg.lower()`. -/
def integrity_error (msg : String) : Bool :=
  substr_in "Error finding id" msg || substr_in "finding id" (lower msg)

/-- `VectorStore._vector_search` around the backing query (`docs` is the
candidate pool the keyword fallback would scan): an index-integrity error
degrades to `_keyword_search`, any other error propagates. -/
def vector_search (query : String) (backend : QueryOutcome) (docs : List Doc) (top_k : ℕ) :
    Except String (List Doc) :=
  match backend with
  | .ok items => .ok items
  | .err msg =>
    if integrity_error msg then .ok (keyword_search query docs top_k)
    else .error msg

/-- The embedding worker as seen by one call: `ready` is the value of the
non-blocking `_encoder_ready` flag at call time, `warmup_ok` tells whether
blocking on warmup and encoding succeeds (false models a worker that is
crashed, fails to load, or times out). -/
structure EncoderState where
  ready : Bool
  warmup_ok : Bool

/-- `encode_text`: blocks until the single-flight warmup resolves, then
either returns a vector or raises `RuntimeError("编码失败: ...")`. -/
def encode_text_result (e : EncoderState) : Except String Unit :=
  if e.warmup_ok then .ok () else .error "编码失败"

/-- `VectorStore.search`: embeds the query via `encode_text` (so it fails
whenever the worker is unavailable), then returns the backing results,
which are passed in as `results`. -/
def store_search (e : EncoderState) (results : List Doc) : Except String (List Doc) :=
  match encode_text_result e with
  | .ok _ => .ok results
  | .error msg => .error msg

/-- The dict returned by `MemoryManager.recall`. -/
structure RecallResult where
  episodes : List Doc
  entities : List Doc
  current_episode : Option Episode
  recent_messages : List Msg
  note : Option String
deriving DecidableEq

/-- The `_note` string `recall` attaches when `is_encoder_ready()` was
false at call time. -/
def degraded_note : String := "向量编码器正在初始化中，当前使用关键词匹配（结果可能不够精确）"

/-- `MemoryManager.recall`: reads `is_encoder_ready()`, then issues three
searches (project entities excluding Episode, completed Episodes, user
tier — their backing results are the three list parameters; the
`include_deprecated` flag only selects the metadata filters folded into
them), merges the entity results, attaches the in-memory active episode and
the last 5 messages, and tags the result when the encoder was not ready.
(Named `recall` in the source; `recall` is a reserved word here.) -/
def memory_recall (e : EncoderState) (st : ManagerState) (_include_deprecated : Bool)
    (project_results episode_results user_results : List Doc) :
    Except String RecallResult :=
  let using_vector_search := e.ready
  match store_search e project_results with
  | .error msg => .error msg
  | .ok p =>
    match store_search e episode_results with
    | .error msg => .error msg
    | .ok eps =>
      match store_search e user_results with
      | .error msg => .error msg
      | .ok u =>
        .ok ⟨eps, p ++ u, st.current_episode,
             st.current_messages.drop (st.current_messages.length - 5),
             if using_vector_search then none else some degraded_note⟩

/-- `VectorStore.get_by_type`: a metadata-only scan (`collection.get` with a
`$and` filter on type and status, truncated to `limit`); no embedding and
no worker involved. -/
def get_by_type (docs : List Doc) (entity_type : String) (limit : ℕ) (status : String) :
    List Doc :=
  (docs.filter (fun d => decide (meta_get d.meta "type" = some (.s entity_type) ∧
      meta_get d.meta "status" = some (.s status)))).take limit

/-- `MemoryManager.search_by_type`: with a (truthy) query, a semantic search
through the worker; without one, a metadata-only `get_by_type` scan on the
tier selected by the entity type, with status `completed` for Episodes and
`active` otherwise. -/
def search_by_type (e : EncoderState) (st : ManagerState) (entity_type : String)
    (query : Option String) (top_k : ℕ) (semantic_results : List Doc) :
    Except String (List Doc) :=
  let store_docs :=
    if USER_LEVEL_TYPES.contains entity_type then st.user_store else st.project_store
  let status := if entity_type = "Episode" then "completed" else "active"
  match query with
  | some q =>
    if q = "" then .ok (get_by_type store_docs entity_type top_k status)
    else store_search e semantic_results
  | none => .ok (get_by_type store_docs entity_type top_k status)

/-- The supervisor state of `store.py`: whether `_process_pool` exists,
whether `_warmup_future` is done, the `max_workers` capacity recorded at
each `ProcessPoolExecutor` creation, and the two global flags. -/
structure PoolState where
  pool_exists : Bool
  warmup_done : Bool
  spawn_capacities : List ℕ
  encoder_ready : Bool
  encoder_loading : Bool
deriving DecidableEq

/-- What one `_init_process_pool()` call delivers to its caller: the pool
(normal return), the raised `RuntimeError("编码器预热失败: ...")`, or a
hypothetical fail-fast "not ready" answer — the source has no such path,
and the theorem below proves the embedding never produces it. -/
inductive InitResult where
  | pool
  | warmup_error
  | not_ready
deriving DecidableEq

/-- The initial module state of `store.py` (no pool, no warmup). -/
def pool_start : PoolState := ⟨false, false, [], false, false⟩

/-- One `_init_process_pool()` call. The whole body runs under `_pool_lock`,
so concurrent callers execute it atomically in some order and the function
is a state transformer. The first caller finds no pool: it creates the
`ProcessPoolExecutor` with `max_workers=1` and submits the warmup probe. A
caller that finds the pool with the warmup future not yet done blocks on
`_warmup_future.result(...)` — the shared completion signal — and observes
the shared `warmup_outcome`: on success it marks the encoder ready, on
failure it raises. A caller that finds the warmup already done returns the
pool at once. -/
def init_process_pool (warmup_outcome : Bool) (s : PoolState) : PoolState × InitResult :=
  if s.pool_exists then
    if s.warmup_done then (s, .pool)
    else
      if warmup_outcome then
        ({s with warmup_done := true, encoder_ready := true, encoder_loading := false}, .pool)
      else
        ({s with warmup_done := true, encoder_loading := false}, .warmup_error)
  else
    ({s with pool_exists := true, encoder_loading := true,
             spawn_capacities := s.spawn_capacities ++ [1]}, .pool)

/-- A serialized run of `n` `_init_process_pool()` callers (the spawn lock
makes any concurrent schedule equivalent to such a sequence), returning the
final state and each caller's result in order. -/
def run_calls (warmup_outcome : Bool) : ℕ → PoolState → PoolState × List InitResult
  | 0, s => (s, [])
  | n + 1, s =>
    let step := init_process_pool warmup_outcome s
    let rest := run_calls warmup_outcome n step.1
    (rest.1, step.2 :: rest.2)

/-! ## Specification-worded statements and concrete fixtures

The `*_spec_*` propositions below are modelled from the claims' words, not
from the source, so that a claim refuted by the code can be stated and
disproved exactly as written. The fixtures are concrete states and inputs
used by counterexamples and witnesses. -/

/-- Claim wording (C2): an empty (0-message) episode is never archived by
the staleness check — "discarded without archival". -/
def spec_stale_empty_discarded : Prop :=
  ∀ (now : Time) (st : ManagerState), st.current_messages = [] →
    (close_stale_episode now st).project_store = st.project_store

/-- Claim wording (C3): `recall()` never raises, whatever the worker
state. -/
def spec_recall_never_raises : Prop :=
  ∀ (e : EncoderState) (st : ManagerState) (inc : Bool) (p eps u : List Doc),
    ∃ r, memory_recall e st inc p eps u = Except.ok r

/-- Claim wording (C7): a keyword-method candidate for a type is produced
only if no pattern of that type matched the text. -/
def spec_keyword_only_without_pattern_match (m : Matcher) (ids : ℕ → String) (now : Time)
    (content : String) : Prop :=
  ∀ c ∈ detect_candidates m ids now content, c.detection_method = "keyword" →
    ∀ r : Rule, (c.type, r) ∈ DETECTION_RULES → ∀ p ∈ r.patterns, m p content = []

/-- Claim wording (C8): `cleanup_old_messages(days=7)` keeps exactly the
messages whose age does not exceed the cutoff. -/
def spec_cleanup_keeps_age_le_cutoff : Prop :=
  ∀ (now : Time) (cache : List CacheLine),
    (cleanup_old_messages now 7 cache).1 = cache.filter (fun l => match l with
      | .ok m => decide (now - m.timestamp ≤ 7 * 24 * 3600)
      | .bad _ => true)

/-- Claim wording (C9): confirming a candidate id that is not pending
leaves the whole state (pending queue and stores) unchanged. -/
def spec_confirm_unknown_id_noop : Prop :=
  ∀ (now : Time) (eid cid etype content : String) (st : ManagerState),
    cid ∉ st.pending_entities.map Candidate.id →
    (confirm_entity now eid cid etype content st).1 = st

/-- Claim wording (C10): raw content longer than the 2000-character bound
is never stored verbatim. -/
def spec_never_verbatim_over_2000 : Prop :=
  ∀ content : String, 2000 < content.length → clean_content content ≠ content

/-- Properties of a pattern-method candidate of one rule: right type and
method, confidence `min_confidence + 0.2`, content capped at 200
characters. -/
def pat_cand (tname : String) (conf : ℚ) (c : Candidate) : Prop :=
  c.type = tname ∧ c.detection_method = "pattern" ∧ c.confidence = conf + 1/5
    ∧ c.extracted_content.length ≤ 200

/-- Properties of a keyword-method candidate of one rule: right type and
method, confidence `min_confidence`, content capped at 200 characters. -/
def kw_cand (tname : String) (conf : ℚ) (c : Candidate) : Prop :=
  c.type = tname ∧ c.detection_method = "keyword" ∧ c.confidence = conf
    ∧ c.extracted_content.length ≤ 200

/-- The extraction invariant: every candidate belongs to a rule of the
processed table, pattern candidates carry `min_confidence + 0.2` and
keyword candidates carry `min_confidence` and exclude any pattern
candidate of the same type. -/
def rules_good (done : List (String × Rule)) (cands : List Candidate) : Prop :=
  ∀ c ∈ cands, ∃ r : Rule, (c.type, r) ∈ done ∧
    ((c.detection_method = "pattern" ∧ c.confidence = r.min_confidence + 1/5
        ∧ c.extracted_content.length ≤ 200)
     ∨ (c.detection_method = "keyword" ∧ c.confidence = r.min_confidence
        ∧ c.extracted_content.length ≤ 200
        ∧ ∀ c' ∈ cands, c'.type = c.type → c'.detection_method = "keyword"))

/-- A deterministic candidate-id supply standing for `cand_<uuid4>`. -/
def ids0 : ℕ → String := fun n => "cand_" ++ toString n

/-- A deterministic entity-id supply standing for `ent_<uuid4>`. -/
def ent_ids0 : ℕ → String := fun n => "ent_" ++ toString n

/-- A fixed reason formatter standing for `"自动确认 (置信度: %.2f)"`. -/
def reason0 : ℚ → String := fun _ => "自动确认"

/-- A concrete active episode created at time 0 with no linked entities. -/
def ep0 : Episode := ⟨"ep_0", "调研", [], "active", 0, []⟩

/-- A manager state with the active episode `ep0` and no messages. -/
def st_active_empty : ManagerState := ⟨[], [], some ep0, [], [], []⟩

/-- A manager state with nothing in it. -/
def st0 : ManagerState := ⟨[], [], none, [], [], []⟩

/-- An encoder whose worker is unavailable (warmup failed / crashed /
timed out) and whose ready flag is down. -/
def worker_down : EncoderState := ⟨false, false⟩

/-- C4 fixture: content repeating one query token three times. -/
def docA : Doc := ⟨"A", "ab ab ab", []⟩

/-- C4 fixture: content containing each of the two query tokens once. -/
def docB : Doc := ⟨"B", "ab cd", []⟩

/-- C7 fixture: the `re.findall(pattern, "什么是小猫咪", re.IGNORECASE)`
results for every pattern of `DETECTION_RULES` on that input — only the
second `Concept` pattern matches, its greedy single group capturing
`"小猫咪"`; every other pattern has no match (none of their required
literals occurs in the text). -/
def m0 : Matcher := fun p content =>
  if p = concept_pattern_2 ∧ content = "什么是小猫咪" then [["小猫咪"]] else []

/-- The single candidate the embedding extracts from `"什么是小猫咪"`. -/
def c7_candidate : Candidate :=
  ⟨"cand_0", "Concept", "什么是小猫咪", "什么是小猫咪", 5/10, "pending", 0, "keyword"⟩

/-- C8 fixture: four cached messages aged 0, 3, 8 and 10 days at
`now = 864000` (10 days). -/
def m_age0 : Msg := ⟨"m0", "user", "a", 864000, none⟩

/-- C8 fixture: message aged 3 days. -/
def m_age3 : Msg := ⟨"m1", "user", "b", 604800, none⟩

/-- C8 fixture: message aged 8 days. -/
def m_age8 : Msg := ⟨"m2", "assistant", "c", 172800, none⟩

/-- C8 fixture: message aged 10 days. -/
def m_age10 : Msg := ⟨"m3", "assistant", "d", 0, none⟩

/-- C8 fixture: the cache holding the four messages. -/
def cache4 : List CacheLine := [.ok m_age0, .ok m_age3, .ok m_age8, .ok m_age10]

/-- C6 fixture: a detected candidate at confidence 0.9 (user-level type). -/
def cand_high : Candidate :=
  ⟨"cand_9", "Preference", "喜欢简洁的代码", "片段", 9/10, "pending", 0, "pattern"⟩

/-- C10 fixture: 2000 `a`s followed by the truncation marker — 2008
characters, no backtick, no whitespace at either end. -/
def raw_2008 : String := String.mk (List.replicate 2000 'a' ++ trunc_marker)

/-! ## Theorems -/

/-- Helper: a kept line of `cleanup_old_messages` is a cache line whose
message is strictly younger than the cutoff duration. -/
theorem cleanup_mem_kept (now : Time) (days : ℕ) (cache : List CacheLine) (m : Msg) :
    CacheLine.ok m ∈ (cleanup_old_messages now days cache).1 ↔
      CacheLine.ok m ∈ cache ∧ now - m.timestamp < (days : ℚ) * 24 * 3600 := by
  unfold cleanup_old_messages
  simp only [List.mem_filter, decide_eq_true_iff]
  constructor
  · rintro ⟨hm, hlt⟩
    exact ⟨hm, by linarith⟩
  · rintro ⟨hm, hlt⟩
    exact ⟨hm, by linarith⟩

/-- Claim C8 (amended): `cleanup_old_messages` keeps exactly the parsed cache
lines strictly younger than `days·24·3600` seconds (a message aged exactly
the cutoff is removed), and on the concrete cache of ages {0, 3, 8, 10}
days with `days = 7` it keeps the 2 newest and removes the 2 oldest. -/
theorem cleanup_old_messages_spec :
    (∀ (now : Time) (days : ℕ) (cache : List CacheLine) (m : Msg),
      CacheLine.ok m ∈ (cleanup_old_messages now days cache).1 ↔
        CacheLine.ok m ∈ cache ∧ now - m.timestamp < (days : ℚ) * 24 * 3600)
    ∧ cleanup_old_messages 864000 7 cache4 =
        ([CacheLine.ok m_age0, CacheLine.ok m_age3], 2) := by
  refine ⟨cleanup_mem_kept, ?_⟩
  have e1 : (864000 : ℚ) - (7 : ℕ) * 24 * 3600 = 259200 := by push_cast; norm_num
  unfold cleanup_old_messages cache4
  simp only [e1, List.filter, List.countP, List.countP.go, m_age0, m_age3, m_age8, m_age10]
  norm_num

/-- Claim C8 (counterexample): a message aged exactly the 7-day cutoff does
not exceed it, yet the code removes it (`msg_time > cutoff` is strict). -/
theorem cleanup_boundary_counterexample : ¬ spec_cleanup_keeps_age_le_cutoff := by
  intro h
  have h2 := h 604800 [CacheLine.ok ⟨"m", "user", "x", 0, none⟩]
  have e1 : (604800 : ℚ) - (7 : ℕ) * 24 * 3600 = 0 := by push_cast; norm_num
  have e2 : (604800 : ℚ) - (0 : ℚ) = 604800 := by norm_num
  rw [show (7 : ℚ) * 24 * 3600 = 604800 from by norm_num] at h2
  unfold cleanup_old_messages at h2
  simp only [e1, e2, List.filter] at h2
  norm_num at h2

/-- Helper: filtering by "id differs" is the identity when the id is not
among the pending ids. -/
theorem pending_filter_of_not_mem (cid : String) (l : List Candidate)
    (h : cid ∉ l.map Candidate.id) :
    l.filter (fun p => decide (p.id ≠ cid)) = l := by
  apply List.filter_eq_self.mpr
  intro p hp
  simp only [decide_eq_true_iff]
  intro hpc
  exact h (List.mem_map.mpr ⟨p, hp, hpc⟩)

/-- Helper: `add_entity` never touches the pending queue, the message log
or the message buffer, and adds exactly one record to exactly one tier. -/
theorem add_entity_fields (now : Time) (eid etype content reason : String)
    (rel : List String) (st : ManagerState) :
    (add_entity now eid etype content reason rel st).1.pending_entities = st.pending_entities
    ∧ (add_entity now eid etype content reason rel st).1.cache_file = st.cache_file
    ∧ (add_entity now eid etype content reason rel st).1.current_messages = st.current_messages
    ∧ (add_entity now eid etype content reason rel st).1.user_store.length +
        (add_entity now eid etype content reason rel st).1.project_store.length =
        st.user_store.length + st.project_store.length + 1 := by
  unfold add_entity
  cases h1 : USER_LEVEL_TYPES.contains etype <;>
    cases h2 : st.current_episode <;>
      simp [h1, h2, List.length_append] <;> omega

/-- Claim C9 (amended): on an unknown candidate id, `reject_candidate` is a
complete no-op and `confirm_entity` raises no error and leaves the pending
queue (and the logs) unchanged — but, unlike the claim, it still adds the
supplied content as a fresh entity record to one of the stores. -/
theorem confirm_reject_unknown_spec :
    ∀ (now : Time) (eid cid etype content : String) (st : ManagerState),
      cid ∉ st.pending_entities.map Candidate.id →
      reject_candidate cid st = st
      ∧ (confirm_entity now eid cid etype content st).1.pending_entities = st.pending_entities
      ∧ (confirm_entity now eid cid etype content st).1.cache_file = st.cache_file
      ∧ (confirm_entity now eid cid etype content st).1.user_store.length +
          (confirm_entity now eid cid etype content st).1.project_store.length =
          st.user_store.length + st.project_store.length + 1 := by
  intro now eid cid etype content st h
  have hf := pending_filter_of_not_mem cid st.pending_entities h
  have hst : ({st with pending_entities :=
      st.pending_entities.filter (fun p => decide (p.id ≠ cid))} : ManagerState) = st := by
    rw [hf]
  refine ⟨?_, ?_, ?_, ?_⟩
  · unfold reject_candidate
    exact hst
  · unfold confirm_entity
    rw [hst]
    exact (add_entity_fields now eid etype content "" [] st).1
  · unfold confirm_entity
    rw [hst]
    exact (add_entity_fields now eid etype content "" [] st).2.1
  · unfold confirm_entity
    rw [hst]
    exact (add_entity_fields now eid etype content "" [] st).2.2.2

/-- Witness for `confirm_reject_unknown_spec` at a concrete empty state. -/
theorem confirm_reject_unknown_spec_witness :
    reject_candidate "cand_x" st0 = st0
    ∧ (confirm_entity 0 "ent_x" "cand_x" "Decision" "内容" st0).1.pending_entities =
        st0.pending_entities
    ∧ (confirm_entity 0 "ent_x" "cand_x" "Decision" "内容" st0).1.cache_file = st0.cache_file
    ∧ (confirm_entity 0 "ent_x" "cand_x" "Decision" "内容" st0).1.user_store.length +
        (confirm_entity 0 "ent_x" "cand_x" "Decision" "内容" st0).1.project_store.length =
        st0.user_store.length + st0.project_store.length + 1 :=
  confirm_reject_unknown_spec 0 "ent_x" "cand_x" "Decision" "内容" st0 (by decide)

/-- Claim C9 (counterexample): confirming an id absent from the pending queue
is not a no-op — the project store gains a record. -/
theorem confirm_unknown_adds_entity_counterexample : ¬ spec_confirm_unknown_id_noop := by
  intro h
  have h2 := h 0 "ent_x2" "cand_y" "Decision" "内容" st0 (by decide)
  exact absurd (congrArg (fun s => s.project_store.length) h2) (by decide)

/-- Claim C5 (confirmed): `start_episode` while an episode is active first
archives the active one into the project store, then installs the fresh
active episode (supplied id, `active` status, empty entity list) with an
empty message buffer — so at most one episode is ever active. -/
theorem start_episode_single_active :
    ∀ (now : Time) (fid title : String) (tags : List String) (st : ManagerState)
      (ep : Episode),
      st.current_episode = some ep →
      (start_episode now fid title tags st).1.current_episode =
        some (start_episode now fid title tags st).2
      ∧ (start_episode now fid title tags st).2 = ⟨fid, title, tags, "active", now, []⟩
      ∧ (start_episode now fid title tags st).1.current_messages = []
      ∧ (start_episode now fid title tags st).1.user_store = st.user_store
      ∧ (start_episode now fid title tags st).1.project_store = st.project_store ++
          [⟨ep.id, generate_summary ep st.current_messages,
            close_metadata now ep st.current_messages⟩] := by
  intro now fid title tags st ep h
  unfold start_episode close_episode
  simp [h]

/-- Witness for `start_episode_single_active` on a state whose active
episode is `ep0`. -/
theorem start_episode_single_active_witness :
    (start_episode 60 "ep_1" "新任务" [] st_active_empty).1.current_episode =
      some (start_episode 60 "ep_1" "新任务" [] st_active_empty).2
    ∧ (start_episode 60 "ep_1" "新任务" [] st_active_empty).2 =
        ⟨"ep_1", "新任务", [], "active", 60, []⟩
    ∧ (start_episode 60 "ep_1" "新任务" [] st_active_empty).1.current_messages = []
    ∧ (start_episode 60 "ep_1" "新任务" [] st_active_empty).1.user_store =
        st_active_empty.user_store
    ∧ (start_episode 60 "ep_1" "新任务" [] st_active_empty).1.project_store =
        st_active_empty.project_store ++
          [⟨ep0.id, generate_summary ep0 st_active_empty.current_messages,
            close_metadata 60 ep0 st_active_empty.current_messages⟩] :=
  start_episode_single_active 60 "ep_1" "新任务" [] st_active_empty ep0 rfl

/-- Helper: the auto-close summary always starts with `"[自动关闭] "` and is
in particular never the empty string (so `close_episode` keeps it). -/
theorem stale_summary_ne_empty (t : String) (q : ℚ) : stale_summary t q ≠ "" := by
  intro hEq
  have h1 := congrArg String.length hEq
  unfold stale_summary at h1
  rw [String.length_append, String.length_append, String.length_append,
    String.length_append] at h1
  rw [show ("[自动关闭] " : String).length = 7 from rfl] at h1
  rw [show ("" : String).length = 0 from rfl] at h1
  omega

/-- Claim C2 (amended): on construction, an active episode whose idle gap
(since its last message, or since creation when it has none) is at least 30
minutes is auto-closed and archived as an Episode record in the project
store — whether or not it has any messages (an empty stale episode is
archived too, not discarded); a younger episode is left untouched. -/
theorem stale_episode_autoclose_spec :
    ∀ (now : Time) (st : ManagerState) (ep : Episode),
      st.current_episode = some ep →
      (STALE_EPISODE_MINUTES ≤ (now - stale_last_activity st ep) / 60 →
        (close_stale_episode now st).current_episode = none
        ∧ (close_stale_episode now st).current_messages = []
        ∧ (close_stale_episode now st).project_store = st.project_store ++
            [⟨ep.id, stale_summary ep.title ((now - stale_last_activity st ep) / 60),
              close_metadata now ep st.current_messages⟩])
      ∧ ((now - stale_last_activity st ep) / 60 < STALE_EPISODE_MINUTES →
          close_stale_episode now st = st) := by
  intro now st ep h
  constructor
  · intro hc
    simp only [close_stale_episode, h]
    rw [if_pos hc]
    simp only [close_episode, h]
    rw [if_neg (stale_summary_ne_empty ep.title ((now - stale_last_activity st ep) / 60))]
    simp
  · intro hc
    simp only [close_stale_episode, h]
    rw [if_neg (not_le.mpr hc)]

/-- Helper: the concrete 30-minute idle gap of the witness state. -/
theorem stale_witness_cond :
    STALE_EPISODE_MINUTES ≤ ((1800 : ℚ) - stale_last_activity st_active_empty ep0) / 60 := by
  unfold STALE_EPISODE_MINUTES stale_last_activity st_active_empty ep0
  norm_num

/-- Witness for `stale_episode_autoclose_spec`: a 0-message episode created
at time 0, checked at time 1800 s (30 minutes), is closed and archived. -/
theorem stale_episode_autoclose_spec_witness :
    (close_stale_episode 1800 st_active_empty).current_episode = none
    ∧ (close_stale_episode 1800 st_active_empty).current_messages = []
    ∧ (close_stale_episode 1800 st_active_empty).project_store =
        st_active_empty.project_store ++
          [⟨ep0.id,
            stale_summary ep0.title ((1800 - stale_last_activity st_active_empty ep0) / 60),
            close_metadata 1800 ep0 st_active_empty.current_messages⟩] :=
  (stale_episode_autoclose_spec 1800 st_active_empty ep0 rfl).1 stale_witness_cond

/-- Claim C2 (counterexample): the 0-message stale episode above is archived
(the project store grows), refuting "discarded without archival". -/
theorem stale_empty_archived_counterexample : ¬ spec_stale_empty_discarded := by
  intro h
  have h2 := h 1800 st_active_empty rfl
  have h3 : (close_stale_episode 1800 st_active_empty).project_store =
      st_active_empty.project_store ++
        [⟨ep0.id,
          stale_summary ep0.title ((1800 - stale_last_activity st_active_empty ep0) / 60),
          close_metadata 1800 ep0 st_active_empty.current_messages⟩] := by
    simp only [close_stale_episode,
      show st_active_empty.current_episode = some ep0 from rfl]
    rw [if_pos stale_witness_cond]
    simp only [close_episode,
      show st_active_empty.current_episode = some ep0 from rfl]
    rw [if_neg (stale_summary_ne_empty ep0.title _)]
  rw [h2] at h3
  simp [st_active_empty] at h3

/-- Claim C3 (amended): `recall` blocks on the single-flight warmup through
`encode_text`; when the worker resolves it returns the merged results,
tagged with the degraded note exactly when the ready flag was down at call
time — but when the worker is unavailable it raises instead of returning a
degraded result. `search_by_type` without a query is a metadata-only scan
that succeeds whatever the worker state. -/
theorem recall_degraded_spec :
    ∀ (e : EncoderState) (st : ManagerState) (inc : Bool) (p eps u : List Doc),
      (e.warmup_ok = true →
        memory_recall e st inc p eps u = Except.ok
          ⟨eps, p ++ u, st.current_episode,
           st.current_messages.drop (st.current_messages.length - 5),
           if e.ready then none else some degraded_note⟩)
      ∧ (e.warmup_ok = false →
          memory_recall e st inc p eps u = Except.error "编码失败")
      ∧ (∀ (etype : String) (k : ℕ) (sem : List Doc),
          search_by_type e st etype none k sem = Except.ok
            (get_by_type
              (if USER_LEVEL_TYPES.contains etype then st.user_store else st.project_store)
              etype k (if etype = "Episode" then "completed" else "active"))) := by
  intro e st inc p eps u
  refine ⟨?_, ?_, ?_⟩
  · intro hw
    unfold memory_recall store_search encode_text_result
    rw [hw]
    rfl
  · intro hw
    unfold memory_recall store_search encode_text_result
    rw [hw]
    rfl
  · intro etype k sem
    rfl

/-- Witness for `recall_degraded_spec`: a worker that resolves while the
ready flag is still down — the call succeeds and carries the degraded
note. -/
theorem recall_degraded_spec_witness :
    memory_recall ⟨false, true⟩ st0 false [] [] [] = Except.ok
      ⟨[], [] ++ [], st0.current_episode,
       st0.current_messages.drop (st0.current_messages.length - 5),
       if (false : Bool) then none else some degraded_note⟩ :=
  (recall_degraded_spec ⟨false, true⟩ st0 false [] [] []).1 rfl

/-- Claim C3 (counterexample): with the worker unavailable, `recall` raises
`RuntimeError` (the search path re-raises the encode failure) instead of
returning a degraded result. -/
theorem recall_raises_counterexample : ¬ spec_recall_never_raises := by
  intro h
  obtain ⟨r, hr⟩ := h worker_down st0 false [] [] []
  rw [show memory_recall worker_down st0 false [] [] [] = Except.error "编码失败" from rfl] at hr
  exact Except.noConfusion hr

/-- Helper: unfolding one caller of `run_calls`. -/
theorem run_calls_succ (outcome : Bool) (n : ℕ) (s : PoolState) :
    run_calls outcome (n + 1) s =
      ((run_calls outcome n (init_process_pool outcome s).1).1,
       (init_process_pool outcome s).2 ::
         (run_calls outcome n (init_process_pool outcome s).1).2) := rfl

/-- Helper: a caller that finds the pool with the warmup settled just gets
the pool back. -/
theorem init_done (outcome : Bool) (s : PoolState) (h1 : s.pool_exists = true)
    (h2 : s.warmup_done = true) :
    init_process_pool outcome s = (s, InitResult.pool) := by
  unfold init_process_pool
  rw [h1, h2]
  simp

/-- Helper: a caller that blocks on a succeeding warmup marks the encoder
ready and gets the pool. -/
theorem init_wait_ok (s : PoolState) (h1 : s.pool_exists = true)
    (h2 : s.warmup_done = false) :
    init_process_pool true s =
      ({s with warmup_done := true, encoder_ready := true, encoder_loading := false},
       InitResult.pool) := by
  unfold init_process_pool
  rw [h1, h2]
  simp

/-- Helper: a caller that blocks on a failing warmup raises the warmup
error. -/
theorem init_wait_fail (s : PoolState) (h1 : s.pool_exists = true)
    (h2 : s.warmup_done = false) :
    init_process_pool false s =
      ({s with warmup_done := true, encoder_loading := false},
       InitResult.warmup_error) := by
  unfold init_process_pool
  rw [h1, h2]
  simp

/-- Helper: once the pool exists and the warmup future is done, every
further `_init_process_pool()` call returns the pool and changes nothing. -/
theorem run_calls_after_done (outcome : Bool) :
    ∀ (k : ℕ) (s : PoolState), s.pool_exists = true → s.warmup_done = true →
      run_calls outcome k s = (s, List.replicate k InitResult.pool) := by
  intro k
  induction k with
  | zero => intro s _ _; rfl
  | succ n ih =>
    intro s h1 h2
    rw [run_calls_succ, init_done outcome s h1 h2]
    rw [ih s h1 h2]
    rfl

/-- Helper: with a successful warmup outcome, every call after the spawn
returns the pool and never spawns again. -/
theorem run_calls_warm_true :
    ∀ (k : ℕ) (s : PoolState), s.pool_exists = true →
      (run_calls true k s).1.spawn_capacities = s.spawn_capacities
      ∧ ∀ r ∈ (run_calls true k s).2, r = InitResult.pool := by
  intro k
  induction k with
  | zero => intro s _; exact ⟨rfl, by intro r hr; cases hr⟩
  | succ n ih =>
    intro s h1
    cases h2 : s.warmup_done with
    | true =>
      rw [run_calls_after_done true (n + 1) s h1 h2]
      refine ⟨rfl, ?_⟩
      intro r hr
      exact List.eq_of_mem_replicate hr
    | false =>
      rw [run_calls_succ, init_wait_ok s h1 h2]
      have ih2 := ih ⟨s.pool_exists, true, s.spawn_capacities, true, false⟩ h1
      refine ⟨ih2.1, ?_⟩
      intro r hr
      rcases List.mem_cons.mp hr with h' | h'
      · exact h'
      · exact ih2.2 r h'

/-- The supervisor state right after the first caller's spawn. -/
def pool_spawned : PoolState := ⟨true, false, [1], false, true⟩

/-- Helper: the first `_init_process_pool()` call spawns exactly one worker
pool of capacity 1 and submits the warmup. -/
theorem first_call_spawns (outcome : Bool) :
    init_process_pool outcome pool_start = (pool_spawned, InitResult.pool) := rfl

/-- Claim C1 (confirmed): warmup is single-flight. For any number `n ≥ 1` of
(lock-serialized) concurrent callers: exactly one pool is ever created,
with capacity `max_workers = 1`; no caller is answered "not ready"; when
the shared warmup succeeds every caller gets the pool (one shared
readiness outcome); when it fails, the spawner gets the pool, the caller
blocked on the shared future gets the shared failure, and later callers
find the settled future and get the pool. -/
theorem warmup_single_flight :
    ∀ (outcome : Bool) (n : ℕ), 1 ≤ n →
      (run_calls outcome n pool_start).1.spawn_capacities = [1]
      ∧ (∀ r ∈ (run_calls outcome n pool_start).2, r ≠ InitResult.not_ready)
      ∧ (outcome = true → ∀ r ∈ (run_calls outcome n pool_start).2, r = InitResult.pool)
      ∧ (outcome = false → (run_calls outcome n pool_start).2 =
          InitResult.pool :: (if n = 1 then [] else
            InitResult.warmup_error :: List.replicate (n - 2) InitResult.pool)) := by
  intro outcome n hn
  obtain ⟨m, rfl⟩ : ∃ m, n = m + 1 := ⟨n - 1, by omega⟩
  rw [run_calls_succ, first_call_spawns]
  cases outcome with
  | true =>
    have h := run_calls_warm_true m pool_spawned rfl
    refine ⟨h.1, ?_, ?_, ?_⟩
    · intro r hr
      rcases List.mem_cons.mp hr with h' | h'
      · rw [h']; intro hne; cases hne
      · rw [h.2 r h']; intro hne; cases hne
    · intro _ r hr
      rcases List.mem_cons.mp hr with h' | h'
      · exact h'
      · exact h.2 r h'
    · intro hfalse; cases hfalse
  | false =>
    cases m with
    | zero =>
      refine ⟨rfl, ?_, ?_, ?_⟩
      · intro r hr
        rcases List.mem_cons.mp hr with h' | h'
        · rw [h']; intro hne; cases hne
        · cases h'
      · intro htrue; cases htrue
      · intro _; rfl
    | succ k =>
      rw [run_calls_succ, init_wait_fail pool_spawned rfl rfl]
      rw [run_calls_after_done false k
        {pool_spawned with warmup_done := true, encoder_loading := false} rfl rfl]
      refine ⟨rfl, ?_, ?_, ?_⟩
      · intro r hr
        rcases List.mem_cons.mp hr with h' | h'
        · rw [h']; intro hne; cases hne
        · rcases List.mem_cons.mp h' with h'' | h''
          · rw [h'']; intro hne; cases hne
          · rw [List.eq_of_mem_replicate h'']; intro hne; cases hne
      · intro htrue; cases htrue
      · intro _
        have hk : k + 1 + 1 - 2 = k := by omega
        simp [hk]

/-- Witness for `warmup_single_flight`: three concurrent callers with a
succeeding warmup. -/
theorem warmup_single_flight_witness :
    (run_calls true 3 pool_start).1.spawn_capacities = [1]
    ∧ (∀ r ∈ (run_calls true 3 pool_start).2, r ≠ InitResult.not_ready)
    ∧ ((true : Bool) = true → ∀ r ∈ (run_calls true 3 pool_start).2, r = InitResult.pool)
    ∧ ((true : Bool) = false → (run_calls true 3 pool_start).2 =
        InitResult.pool :: (if (3 : ℕ) = 1 then [] else
          InitResult.warmup_error :: List.replicate (3 - 2) InitResult.pool)) :=
  warmup_single_flight true 3 (by decide)

/-- Claim C6 (confirmed): a detected candidate at confidence
`≥ AUTO_CONFIRM_THRESHOLD = 0.85` is promoted synchronously: an active
record with its extracted content lands in the user store when its type is
`Preference`/`Concept`/`Habit` and in the project store otherwise, and the
fresh entity id is linked into the active episode's entity list; a
candidate below the threshold is only appended to the pending queue. -/
theorem candidate_routing_spec :
    ∀ (now : Time) (ids : ℕ → String) (fmt : ℚ → String) (c : Candidate)
      (st : ManagerState) (ep : Episode),
      st.current_episode = some ep →
      (AUTO_CONFIRM_THRESHOLD ≤ c.confidence →
        (process_candidates now ids fmt [c] 0 st).pending_entities = st.pending_entities
        ∧ (process_candidates now ids fmt [c] 0 st).current_episode =
            some ⟨ep.id, ep.title, ep.tags, ep.status, ep.created_at,
              ep.entity_ids ++ [ids 0]⟩
        ∧ meta_get (entity_metadata now c.type (fmt c.confidence) [] st) "status" =
            some (MetaVal.s "active")
        ∧ (USER_LEVEL_TYPES.contains c.type = true →
            (process_candidates now ids fmt [c] 0 st).user_store =
              st.user_store ++ [⟨ids 0, c.extracted_content,
                entity_metadata now c.type (fmt c.confidence) [] st⟩]
            ∧ (process_candidates now ids fmt [c] 0 st).project_store = st.project_store)
        ∧ (USER_LEVEL_TYPES.contains c.type = false →
            (process_candidates now ids fmt [c] 0 st).project_store =
              st.project_store ++ [⟨ids 0, c.extracted_content,
                entity_metadata now c.type (fmt c.confidence) [] st⟩]
            ∧ (process_candidates now ids fmt [c] 0 st).user_store = st.user_store))
      ∧ (c.confidence < AUTO_CONFIRM_THRESHOLD →
          process_candidates now ids fmt [c] 0 st =
            {st with pending_entities := st.pending_entities ++ [c]}) := by
  intro now ids fmt c st ep h
  constructor
  · intro hc
    unfold process_candidates process_candidates process_one
    rw [if_pos hc]
    unfold add_entity
    cases h1 : USER_LEVEL_TYPES.contains c.type <;>
      simp [h1, h, meta_get, entity_metadata]
  · intro hc
    unfold process_candidates process_candidates process_one
    rw [if_neg (not_le.mpr hc)]

/-- Helper: the witness candidate's confidence 0.9 clears the 0.85
auto-confirmation threshold. -/
theorem cand_high_clears_threshold : AUTO_CONFIRM_THRESHOLD ≤ cand_high.confidence := by
  unfold AUTO_CONFIRM_THRESHOLD cand_high
  norm_num

/-- Witness for `candidate_routing_spec`: the 0.9-confidence `Preference`
candidate is promoted into the user store of `st_active_empty` and linked
to `ep0`. -/
theorem candidate_routing_spec_witness :
    (process_candidates 0 ent_ids0 reason0 [cand_high] 0 st_active_empty).pending_entities =
      st_active_empty.pending_entities
    ∧ (process_candidates 0 ent_ids0 reason0 [cand_high] 0 st_active_empty).current_episode =
        some ⟨ep0.id, ep0.title, ep0.tags, ep0.status, ep0.created_at,
          ep0.entity_ids ++ [ent_ids0 0]⟩
    ∧ meta_get (entity_metadata 0 cand_high.type (reason0 cand_high.confidence) []
        st_active_empty) "status" = some (MetaVal.s "active")
    ∧ (USER_LEVEL_TYPES.contains cand_high.type = true →
        (process_candidates 0 ent_ids0 reason0 [cand_high] 0 st_active_empty).user_store =
          st_active_empty.user_store ++ [⟨ent_ids0 0, cand_high.extracted_content,
            entity_metadata 0 cand_high.type (reason0 cand_high.confidence) [] st_active_empty⟩]
        ∧ (process_candidates 0 ent_ids0 reason0 [cand_high] 0 st_active_empty).project_store =
            st_active_empty.project_store)
    ∧ (USER_LEVEL_TYPES.contains cand_high.type = false →
        (process_candidates 0 ent_ids0 reason0 [cand_high] 0 st_active_empty).project_store =
          st_active_empty.project_store ++ [⟨ent_ids0 0, cand_high.extracted_content,
            entity_metadata 0 cand_high.type (reason0 cand_high.confidence) [] st_active_empty⟩]
        ∧ (process_candidates 0 ent_ids0 reason0 [cand_high] 0 st_active_empty).user_store =
            st_active_empty.user_store) :=
  (candidate_routing_spec 0 ent_ids0 reason0 cand_high st_active_empty ep0 rfl).1
    cand_high_clears_threshold

/-- Helper: a scored item comes from a candidate document, carries exactly
its `_score`, and (when usable keywords exist) has a positive score. -/
theorem mem_kw_filter_score (keywords : List String) (docs : List Doc) (si : SItem)
    (h : si ∈ kw_filter_score keywords docs) :
    si.doc ∈ docs ∧ si.score = kw_score keywords si.doc.content
      ∧ (keywords ≠ [] → 0 < si.score) := by
  rcases List.mem_filterMap.mp h with ⟨d, hd, hf⟩
  by_cases hc : 0 < kw_score keywords d.content ∨ keywords = []
  · rw [if_pos hc] at hf
    cases hf
    refine ⟨hd, rfl, ?_⟩
    intro hne
    rcases hc with h0 | h0
    · exact h0
    · exact absurd h0 hne
  · rw [if_neg hc] at hf
    cases hf

/-- Claim C4 (amended): on an index-integrity error, `search()` transparently
returns the keyword fallback (the error never surfaces); the fallback
keeps at most `top_k` candidates, each drawn from the candidate pool with
a positive match score whenever usable tokens exist, ranked by descending
score — where a candidate's score counts the query tokens occurring in its
content (each token counted once however often it occurs), not the total
number of occurrences. -/
theorem keyword_fallback_spec :
    ∀ (query msg : String) (docs : List Doc) (top_k : ℕ),
      integrity_error msg = true →
      vector_search query (QueryOutcome.err msg) docs top_k =
        Except.ok (keyword_search query docs top_k)
      ∧ (keyword_search query docs top_k).length ≤ top_k
      ∧ (∀ d ∈ keyword_search query docs top_k,
          d ∈ docs ∧ (kw_tokens query ≠ [] → 0 < kw_score (kw_tokens query) d.content))
      ∧ List.Pairwise (fun a b => kw_score (kw_tokens query) b.content ≤
          kw_score (kw_tokens query) a.content) (keyword_search query docs top_k) := by
  intro query msg docs top_k h
  refine ⟨?_, ?_, ?_, ?_⟩
  · simp [vector_search, h]
  · unfold keyword_search
    rw [List.length_map, List.length_take]
    exact min_le_left _ _
  · intro d hd
    unfold keyword_search at hd
    rcases List.mem_map.mp hd with ⟨si, hsi, rfl⟩
    have hsorted : si ∈ List.insertionSort sitem_ge (kw_filter_score (kw_tokens query) docs) :=
      (List.take_sublist _ _).mem hsi
    have hscored : si ∈ kw_filter_score (kw_tokens query) docs :=
      (List.mem_insertionSort sitem_ge).mp hsorted
    have hmem := mem_kw_filter_score (kw_tokens query) docs si hscored
    refine ⟨hmem.1, ?_⟩
    intro hne
    have := hmem.2.2 hne
    rw [hmem.2.1] at this
    exact this
  · unfold keyword_search
    rw [List.pairwise_map]
    have hsorted : List.Sorted sitem_ge
        (List.insertionSort sitem_ge (kw_filter_score (kw_tokens query) docs)) :=
      List.sorted_insertionSort sitem_ge _
    have htake : List.Pairwise sitem_ge
        ((List.insertionSort sitem_ge (kw_filter_score (kw_tokens query) docs)).take top_k) :=
      hsorted.sublist (List.take_sublist _ _)
    refine List.Pairwise.imp_of_mem ?_ htake
    intro a b ha hb hab
    have hma := mem_kw_filter_score (kw_tokens query) docs a
      ((List.mem_insertionSort sitem_ge).mp ((List.take_sublist _ _).mem ha))
    have hmb := mem_kw_filter_score (kw_tokens query) docs b
      ((List.mem_insertionSort sitem_ge).mp ((List.take_sublist _ _).mem hb))
    rw [← hma.2.1, ← hmb.2.1]
    exact hab

/-- Witness for `keyword_fallback_spec` on the two-document pool and a
concrete integrity-error message. -/
theorem keyword_fallback_spec_witness :
    vector_search "ab cd" (QueryOutcome.err "Error finding id: x") [docA, docB] 1 =
      Except.ok (keyword_search "ab cd" [docA, docB] 1)
    ∧ (keyword_search "ab cd" [docA, docB] 1).length ≤ 1
    ∧ (∀ d ∈ keyword_search "ab cd" [docA, docB] 1,
        d ∈ [docA, docB] ∧ (kw_tokens "ab cd" ≠ [] → 0 < kw_score (kw_tokens "ab cd") d.content))
    ∧ List.Pairwise (fun a b => kw_score (kw_tokens "ab cd") b.content ≤
        kw_score (kw_tokens "ab cd") a.content) (keyword_search "ab cd" [docA, docB] 1) :=
  keyword_fallback_spec "ab cd" "Error finding id: x" [docA, docB] 1 (by decide)

/-- Claim C4 (counterexample): scoring counts matched tokens, not
occurrences. On the query `"ab cd"` with candidates `"ab ab ab"` (token
`ab` three times) and `"ab cd"` (each token once), the code ranks `"ab cd"`
first (2 tokens matched beat 1), while occurrence-count scoring would rank
`"ab ab ab"` first (3 occurrences beat 2). -/
theorem keyword_score_counterexample :
    vector_search "ab cd" (QueryOutcome.err "Error finding id: x") [docA, docB] 1 =
      Except.ok [docB]
    ∧ keyword_search_by_occurrences "ab cd" [docA, docB] 1 = [docA]
    ∧ docB ≠ docA := by
  refine ⟨rfl, by decide, by decide⟩

/-- Helper: a fence cannot start at a non-backtick character. -/
theorem starts_triple_false {c : Char} {rest : List Char} (h : c ≠ backtick) :
    starts_triple (c :: rest) = false := by
  cases rest with
  | nil => rfl
  | cons b t =>
    cases t with
    | nil => rfl
    | cons d t2 => simp [starts_triple, h]

/-- Helper: the fence regex cannot match at a non-backtick character. -/
theorem try_fence_none {c : Char} {rest : List Char} (h : c ≠ backtick) :
    try_fence (c :: rest) = none := by
  unfold try_fence
  rw [starts_triple_false h]
  simp

/-- Helper: the fenced-code substitution is the identity on backtick-free
text. -/
theorem remove_fences_aux_of_no_backtick :
    ∀ (fuel : ℕ) (s : List Char), backtick ∉ s → remove_fences_aux fuel s = s := by
  intro fuel
  induction fuel with
  | zero => intro s _; rfl
  | succ n ih =>
    intro s hs
    cases s with
    | nil => rfl
    | cons c rest =>
      have hc : c ≠ backtick := fun he => hs (he ▸ List.mem_cons_self c rest)
      unfold remove_fences_aux
      rw [try_fence_none hc, ih rest (fun hm => hs (List.mem_cons_of_mem c hm))]

/-- Helper: the inline-code substitution is the identity on backtick-free
text. -/
theorem remove_inline_aux_of_no_backtick :
    ∀ (fuel : ℕ) (s : List Char), backtick ∉ s → remove_inline_aux fuel s = s := by
  intro fuel
  induction fuel with
  | zero => intro s _; rfl
  | succ n ih =>
    intro s hs
    cases s with
    | nil => rfl
    | cons c rest =>
      have hc : c ≠ backtick := fun he => hs (he ▸ List.mem_cons_self c rest)
      unfold remove_inline_aux
      rw [if_neg hc, ih rest (fun hm => hs (List.mem_cons_of_mem c hm))]

/-- Helper: `strip()` is the identity when neither end is whitespace. -/
theorem py_strip_eq_self {s : List Char} (h1 : s.dropWhile Char.isWhitespace = s)
    (h2 : s.reverse.dropWhile Char.isWhitespace = s.reverse) : py_strip s = s := by
  unfold py_strip
  rw [h1, h2, List.reverse_reverse]

/-- Helper: `strip()` never lengthens a string. -/
theorem py_strip_length_le (s : List Char) : (py_strip s).length ≤ s.length := by
  unfold py_strip
  rw [List.length_reverse]
  refine le_trans (List.dropWhile_sublist _).length_le ?_
  rw [List.length_reverse]
  exact (List.dropWhile_sublist _).length_le

/-- Helper: stripping the truncated text stays within `ml` plus the
truncation marker. -/
theorem truncate_strip_length_le (l : List Char) (ml : ℕ) :
    (py_strip (if ml < l.length then l.take ml ++ trunc_marker else l)).length ≤
      ml + trunc_marker.length := by
  by_cases h : ml < l.length
  · rw [if_pos h]
    refine le_trans (py_strip_length_le _) ?_
    rw [List.length_append, List.length_take]
    exact Nat.add_le_add_right (min_le_left _ _) _
  · rw [if_neg h]
    refine le_trans (py_strip_length_le _) ?_
    exact le_trans (Nat.not_lt.mp h) (Nat.le_add_right _ _)

/-- Helper: the cleaned content never exceeds `max_length` plus the
truncation marker (2000 + 8 = 2008 characters at the default). -/
theorem clean_content_length_le (content : String) (ml : ℕ) :
    (clean_content content ml).length ≤ ml + trunc_marker.length :=
  truncate_strip_length_le
    (remove_inline_aux
      (remove_fences_aux content.data.length content.data).length
      (remove_fences_aux content.data.length content.data)) ml

/-- Helper: no backtick occurs in the 2008-character fixture. -/
theorem raw_2008_no_backtick : backtick ∉ List.replicate 2000 'a' ++ trunc_marker := by
  intro hm
  rcases List.mem_append.mp hm with h | h
  · exact absurd (List.eq_of_mem_replicate h) (by decide)
  · exact absurd h (by decide)

/-- Helper: `_clean_content` returns the 2008-character fixture verbatim:
no code to strip, and the truncation reassembles the original because its
tail is exactly the truncation marker. -/
theorem clean_raw_2008 : clean_content raw_2008 = raw_2008 := by
  unfold clean_content raw_2008
  show String.mk (py_strip
    (if 2000 < (remove_inline_aux
        (remove_fences_aux (List.replicate 2000 'a' ++ trunc_marker).length
          (List.replicate 2000 'a' ++ trunc_marker)).length
        (remove_fences_aux (List.replicate 2000 'a' ++ trunc_marker).length
          (List.replicate 2000 'a' ++ trunc_marker))).length
      then _ ++ trunc_marker else _)) = _
  rw [remove_fences_aux_of_no_backtick _ _ raw_2008_no_backtick]
  rw [remove_inline_aux_of_no_backtick _ _ raw_2008_no_backtick]
  have hlen : (List.replicate 2000 'a' ++ trunc_marker).length = 2008 := by
    rw [List.length_append, List.length_replicate]
    rfl
  rw [hlen]
  rw [if_pos (by norm_num : 2000 < 2008)]
  rw [List.take_left' (List.length_replicate 2000 'a')]
  rw [py_strip_eq_self ?h1 ?h2]
  case h1 =>
    rw [show (2000 : ℕ) = 1999 + 1 from rfl, List.replicate_succ, List.cons_append,
      List.dropWhile_cons]
    rw [if_neg (by decide : ¬(Char.isWhitespace 'a' = true))]
  case h2 =>
    rw [List.reverse_append, List.reverse_replicate]
    rw [show trunc_marker.reverse = ']' :: ('断' :: '截' :: '已' :: '[' :: '.' :: '.' :: '.' :: [])
      from rfl]
    rw [List.cons_append, List.dropWhile_cons]
    rw [if_neg (by decide : ¬(Char.isWhitespace ']' = true))]

/-- Helper: processing one candidate never touches the message log or the
message buffer. -/
theorem process_one_preserves (now : Time) (eid : String) (fmt : ℚ → String)
    (c : Candidate) (st : ManagerState) :
    (process_one now eid fmt c st).cache_file = st.cache_file
    ∧ (process_one now eid fmt c st).current_messages = st.current_messages := by
  unfold process_one
  by_cases h : AUTO_CONFIRM_THRESHOLD ≤ c.confidence
  · rw [if_pos h]
    exact ⟨(add_entity_fields now eid c.type c.extracted_content (fmt c.confidence) [] st).2.1,
      (add_entity_fields now eid c.type c.extracted_content (fmt c.confidence) [] st).2.2.1⟩
  · rw [if_neg h]
    exact ⟨rfl, rfl⟩

/-- Helper: the `_detect_and_process_entities` loop never touches the
message log or the message buffer. -/
theorem process_candidates_preserves :
    ∀ (cs : List Candidate) (now : Time) (ids : ℕ → String) (fmt : ℚ → String) (k : ℕ)
      (st : ManagerState),
      (process_candidates now ids fmt cs k st).cache_file = st.cache_file
      ∧ (process_candidates now ids fmt cs k st).current_messages = st.current_messages := by
  intro cs
  induction cs with
  | nil => intro now ids fmt k st; exact ⟨rfl, rfl⟩
  | cons c cs ih =>
    intro now ids fmt k st
    unfold process_candidates
    have h1 := process_one_preserves now (ids k) fmt c st
    have h2 := ih now ids fmt (k + 1) (process_one now (ids k) fmt c st)
    exact ⟨h2.1.trans h1.1, h2.2.trans h1.2⟩

/-- Claim C10 (amended): every message stored by `cache_message` (in the
jsonl log and in the in-memory buffer) carries `_clean_content(content)`:
code blocks replaced by placeholders, truncated to at most 2000 characters
plus the 8-character truncation marker (so never more than 2008
characters); raw content longer than 2008 characters is never stored
verbatim — but raw content of 2001–2008 characters that already ends in
the marker can be (see the counterexample). -/
theorem cache_message_sanitizes :
    ∀ (now : Time) (mid : String) (cand_ids ent_ids : ℕ → String) (fmt : ℚ → String)
      (m : Matcher) (role content : String) (st : ManagerState),
      (cache_message now mid cand_ids ent_ids fmt m role content st).2.content =
        clean_content content
      ∧ (cache_message now mid cand_ids ent_ids fmt m role content st).1.cache_file =
          st.cache_file ++
            [CacheLine.ok (cache_message now mid cand_ids ent_ids fmt m role content st).2]
      ∧ (cache_message now mid cand_ids ent_ids fmt m role content st).1.current_messages =
          st.current_messages ++
            [(cache_message now mid cand_ids ent_ids fmt m role content st).2]
      ∧ (clean_content content).length ≤ 2008
      ∧ (2008 < content.length →
          (cache_message now mid cand_ids ent_ids fmt m role content st).2.content ≠
            content) := by
  intro now mid cand_ids ent_ids fmt m role content st
  have hlen : (clean_content content).length ≤ 2008 :=
    le_trans (clean_content_length_le content 2000) (by rfl)
  refine ⟨rfl, ?_, ?_, hlen, ?_⟩
  · unfold cache_message
    dsimp only
    by_cases h : role = "user"
    · rw [if_pos h]
      exact (process_candidates_preserves _ _ _ _ _ _).1
    · rw [if_neg h]
  · unfold cache_message
    dsimp only
    by_cases h : role = "user"
    · rw [if_pos h]
      exact (process_candidates_preserves _ _ _ _ _ _).2
    · rw [if_neg h]
  · intro hlong heq
    have : (clean_content content).length = content.length := by
      rw [show (cache_message now mid cand_ids ent_ids fmt m role content st).2.content =
        clean_content content from rfl] at heq
      rw [heq]
    omega

/-- The 2009-character witness content. -/
def content_2009 : String := String.mk (List.replicate 2009 'b')

/-- Helper: the witness content exceeds the 2008-character bound. -/
theorem content_2009_long : 2008 < content_2009.length := by
  show 2008 < (List.replicate 2009 'b').length
  rw [List.length_replicate]
  norm_num

/-- Witness for `cache_message_sanitizes`: a 2009-character message is not
stored verbatim. -/
theorem cache_message_sanitizes_witness :
    (cache_message 0 "msg_0" ids0 ent_ids0 reason0 m0 "assistant" content_2009 st0).2.content ≠
      content_2009 :=
  (cache_message_sanitizes 0 "msg_0" ids0 ent_ids0 reason0 m0 "assistant" content_2009
    st0).2.2.2.2 content_2009_long

/-- Helper: the 2008-character fixture exceeds the claimed 2000-character
bound. -/
theorem raw_2008_long : 2000 < raw_2008.length := by
  show 2000 < (List.replicate 2000 'a' ++ trunc_marker).length
  rw [List.length_append, List.length_replicate,
    show trunc_marker.length = 8 from rfl]
  norm_num

/-- Claim C10 (counterexample): a raw message of 2000 `a`s followed by the
truncation marker (2008 characters, beyond the 2000-character bound) is
stored verbatim: cleaning truncates it to its first 2000 characters and
re-appends the marker, reproducing the input exactly. -/
theorem clean_verbatim_counterexample : ¬ spec_never_verbatim_over_2000 := by
  intro h
  exact absurd clean_raw_2008 (h raw_2008 raw_2008_long)

/-- Helper: a Python slice `s[:n]` has at most `n` characters. -/
theorem py_take_length_le (s : String) (n : ℕ) : (py_take s n).length ≤ n := by
  show (s.data.take n).length ≤ n
  rw [List.length_take]
  exact min_le_left _ _

/-- Helper: running the embedded extraction on `"什么是小猫咪"` with the
recorded `findall` results yields exactly one candidate — the
keyword-method Concept sentence — although the second Concept pattern
matched (its 3-character extraction `"小猫咪"` fails the `len > 3`
filter and is suppressed). -/
theorem detect_m0_result :
    detect_candidates m0 ids0 0 "什么是小猫咪" = [c7_candidate] := rfl

/-- Claim C7 (counterexample): on input `"什么是小猫咪"` the second Concept
pattern matches (capturing `"小猫咪"`), yet the pass still emits a
keyword-method Concept candidate, because the pattern's extraction was
suppressed by the `len > 3` filter — refuting "only if no pattern matched
for that type". -/
theorem keyword_despite_pattern_counterexample :
    ¬ spec_keyword_only_without_pattern_match m0 ids0 0 "什么是小猫咪" := by
  intro h
  have hmem : c7_candidate ∈ detect_candidates m0 ids0 0 "什么是小猫咪" := by
    rw [detect_m0_result]
    exact List.mem_singleton_self _
  have hrule : ((c7_candidate.type, concept_rule) : String × Rule) ∈ DETECTION_RULES := by
    show ("Concept", concept_rule) ∈ DETECTION_RULES
    exact List.mem_cons_of_mem _ (List.mem_cons_of_mem _ (List.mem_cons_of_mem _
      (List.mem_cons_self _ _)))
  have hpat : concept_pattern_2 ∈ concept_rule.patterns := by decide
  have h2 := h c7_candidate hmem rfl concept_rule hrule concept_pattern_2 hpat
  exact absurd h2 (by decide)

/-- Helper: one `findall` match either adds nothing or appends one
pattern-method candidate of the current type. -/
theorem pattern_step_cands (ids : ℕ → String) (now : Time) (content tname : String)
    (conf : ℚ) (groups : List String) (acc : DetectAcc) :
    (pattern_step ids now content tname conf groups acc).cands = acc.cands
    ∨ ∃ c, pat_cand tname conf c
        ∧ (pattern_step ids now content tname conf groups acc).cands = acc.cands ++ [c] := by
  unfold pattern_step
  dsimp only
  by_cases h : extracted_of groups ≠ "" ∧ 3 < (extracted_of groups).length ∧
      extracted_of groups ∉ acc.detected
  · rw [if_pos h]
    right
    exact ⟨_, ⟨rfl, rfl, rfl, py_take_length_le _ _⟩, rfl⟩
  · rw [if_neg h]
    left
    rfl

/-- Helper: the `findall` loop only appends pattern-method candidates of
the current type. -/
theorem run_matches_cands :
    ∀ (gs : List (List String)) (ids : ℕ → String) (now : Time) (content tname : String)
      (conf : ℚ) (acc : DetectAcc),
      ∃ tail, (run_matches ids now content tname conf gs acc).cands = acc.cands ++ tail
        ∧ ∀ c ∈ tail, pat_cand tname conf c := by
  intro gs
  induction gs with
  | nil =>
    intro ids now content tname conf acc
    exact ⟨[], (List.append_nil _).symm, by intro c hc; cases hc⟩
  | cons g gs ih =>
    intro ids now content tname conf acc
    unfold run_matches
    rcases ih ids now content tname conf (pattern_step ids now content tname conf g acc) with
      ⟨tail, htail, hprop⟩
    rcases pattern_step_cands ids now content tname conf g acc with h | ⟨c, hc, h⟩
    · exact ⟨tail, by rw [htail, h], hprop⟩
    · refine ⟨c :: tail, ?_, ?_⟩
      · rw [htail, h, List.append_assoc]
        rfl
      · intro c' hc'
        rcases List.mem_cons.mp hc' with h' | h'
        · rw [h']; exact hc
        · exact hprop c' h'

/-- Helper: the pattern loop only appends pattern-method candidates of the
current type. -/
theorem run_patterns_cands :
    ∀ (ps : List String) (m : Matcher) (ids : ℕ → String) (now : Time)
      (content tname : String) (conf : ℚ) (acc : DetectAcc),
      ∃ tail, (run_patterns m ids now content tname conf ps acc).cands = acc.cands ++ tail
        ∧ ∀ c ∈ tail, pat_cand tname conf c := by
  intro ps
  induction ps with
  | nil =>
    intro m ids now content tname conf acc
    exact ⟨[], (List.append_nil _).symm, by intro c hc; cases hc⟩
  | cons p ps ih =>
    intro m ids now content tname conf acc
    unfold run_patterns
    rcases run_matches_cands (m p content) ids now content tname conf acc with
      ⟨tail1, h1, hp1⟩
    rcases ih m ids now content tname conf
      (run_matches ids now content tname conf (m p content) acc) with ⟨tail2, h2, hp2⟩
    refine ⟨tail1 ++ tail2, ?_, ?_⟩
    · rw [h2, h1, List.append_assoc]
    · intro c hc
      rcases List.mem_append.mp hc with h' | h'
      · exact hp1 c h'
      · exact hp2 c h'

/-- Helper: the keyword fallback adds nothing, or — only when no candidate
of the current type exists yet — appends one keyword-method candidate. -/
theorem keyword_phase_cands (ids : ℕ → String) (now : Time) (content tname : String)
    (r : Rule) (acc : DetectAcc) :
    (keyword_phase ids now content tname r acc).cands = acc.cands
    ∨ (tname ∉ acc.cands.map Candidate.type
        ∧ ∃ c, kw_cand tname r.min_confidence c
          ∧ (keyword_phase ids now content tname r acc).cands = acc.cands ++ [c]) := by
  unfold keyword_phase
  by_cases hA : r.keywords.any (fun kw => substr_in kw content) = true
  · rw [if_pos hA]
    by_cases hB : tname ∈ acc.cands.map Candidate.type
    · rw [if_pos hB]
      left
      rfl
    · rw [if_neg hB]
      cases hfind : (split_sentences content).find? (fun s =>
          r.keywords.any (fun kw => substr_in kw s) && decide (5 < s.length)) with
      | none =>
        left
        rfl
      | some s =>
        dsimp only
        by_cases hC : s ∈ acc.detected
        · rw [if_pos hC]
          left
          rfl
        · rw [if_neg hC]
          right
          exact ⟨hB, _, ⟨rfl, rfl, rfl, py_take_length_le _ _⟩, rfl⟩
  · rw [if_neg hA]
    left
    rfl

/-- Helper: processing one type appends its pattern candidates, or — only
when the type has no candidate yet — one keyword candidate. -/
theorem process_type_cands (m : Matcher) (ids : ℕ → String) (now : Time) (content : String)
    (tr : String × Rule) (acc : DetectAcc) :
    (∃ ptail, (process_type m ids now content tr acc).cands = acc.cands ++ ptail
        ∧ ∀ c ∈ ptail, pat_cand tr.1 tr.2.min_confidence c)
    ∨ (tr.1 ∉ acc.cands.map Candidate.type
        ∧ ∃ kc, kw_cand tr.1 tr.2.min_confidence kc
          ∧ (process_type m ids now content tr acc).cands = acc.cands ++ [kc]) := by
  unfold process_type
  rcases run_patterns_cands tr.2.patterns m ids now content tr.1 tr.2.min_confidence acc with
    ⟨ptail, hp, hprop⟩
  rcases keyword_phase_cands ids now content tr.1 tr.2
      (run_patterns m ids now content tr.1 tr.2.min_confidence tr.2.patterns acc) with
    h | ⟨hnotin, kc, hkc, h⟩
  · left
    exact ⟨ptail, by rw [h, hp], hprop⟩
  · rw [hp] at hnotin h
    have hptail : ptail = [] := by
      cases ptail with
      | nil => rfl
      | cons c cs =>
        exfalso
        apply hnotin
        rw [List.map_append]
        exact List.mem_append.mpr (Or.inr
          (List.mem_map.mpr ⟨c, List.mem_cons_self c cs, (hprop c (List.mem_cons_self c cs)).1⟩))
    subst hptail
    rw [List.append_nil] at hnotin h
    exact Or.inr ⟨hnotin, kc, hkc, h⟩

/-- Helper: the pair `(tr.1, tr.2)` is `tr` itself, as a membership. -/
theorem pair_mem_append_singleton (done : List (String × Rule)) (tr : String × Rule) :
    ((tr.1, tr.2) : String × Rule) ∈ done ++ [tr] := by
  cases tr
  exact List.mem_append_right _ (List.mem_singleton_self _)

/-- Helper: processing one fresh type preserves the extraction invariant. -/
theorem process_type_good (m : Matcher) (ids : ℕ → String) (now : Time) (content : String)
    (tr : String × Rule) (done : List (String × Rule)) (acc : DetectAcc)
    (hfresh : tr.1 ∉ done.map Prod.fst)
    (hgood : rules_good done acc.cands) :
    rules_good (done ++ [tr]) (process_type m ids now content tr acc).cands := by
  rcases process_type_cands m ids now content tr acc with
    ⟨ptail, hshape, hprop⟩ | ⟨hno, kc, hkc, hshape⟩
  · intro c hc
    rw [hshape] at hc
    rcases List.mem_append.mp hc with hcm | hcm
    · rcases hgood c hcm with ⟨r, hr, hdis⟩
      refine ⟨r, List.mem_append_left _ hr, ?_⟩
      rcases hdis with hpat | hkw
      · exact Or.inl hpat
      · refine Or.inr ⟨hkw.1, hkw.2.1, hkw.2.2.1, ?_⟩
        intro c' hc' htype
        rw [hshape] at hc'
        rcases List.mem_append.mp hc' with h' | h'
        · exact hkw.2.2.2 c' h' htype
        · exfalso
          have h1 : c'.type = tr.1 := (hprop c' h').1
          have h2 : c.type ∈ done.map Prod.fst := List.mem_map.mpr ⟨(c.type, r), hr, rfl⟩
          rw [← htype, h1] at h2
          exact hfresh h2
    · have hp := hprop c hcm
      refine ⟨tr.2, ?_, Or.inl ⟨hp.2.1, hp.2.2.1, hp.2.2.2⟩⟩
      rw [hp.1]
      exact pair_mem_append_singleton done tr
  · intro c hc
    rw [hshape] at hc
    rcases List.mem_append.mp hc with hcm | hcm
    · rcases hgood c hcm with ⟨r, hr, hdis⟩
      refine ⟨r, List.mem_append_left _ hr, ?_⟩
      rcases hdis with hpat | hkw
      · exact Or.inl hpat
      · refine Or.inr ⟨hkw.1, hkw.2.1, hkw.2.2.1, ?_⟩
        intro c' hc' htype
        rw [hshape] at hc'
        rcases List.mem_append.mp hc' with h' | h'
        · exact hkw.2.2.2 c' h' htype
        · rw [List.mem_singleton.mp h']
          exact hkc.2.1
    · rw [List.mem_singleton.mp hcm]
      refine ⟨tr.2, ?_, Or.inr ⟨hkc.2.1, hkc.2.2.1, hkc.2.2.2, ?_⟩⟩
      · rw [hkc.1]
        exact pair_mem_append_singleton done tr
      · intro c' hc' htype
        rw [hshape] at hc'
        rcases List.mem_append.mp hc' with h' | h'
        · exfalso
          exact hno (List.mem_map.mpr ⟨c', h', by rw [htype, hkc.1]⟩)
        · rw [List.mem_singleton.mp h']
          exact hkc.2.1

/-- Helper: iterating the rule table with pairwise-distinct type keys
preserves the extraction invariant. -/
theorem run_rules_good :
    ∀ (trs done : List (String × Rule)) (acc : DetectAcc) (m : Matcher) (ids : ℕ → String)
      (now : Time) (content : String),
      (done.map Prod.fst ++ trs.map Prod.fst).Nodup →
      rules_good done acc.cands →
      rules_good (done ++ trs) (run_rules m ids now content trs acc).cands := by
  intro trs
  induction trs with
  | nil =>
    intro done acc m ids now content _ hgood
    rw [List.append_nil]
    exact hgood
  | cons tr trs ih =>
    intro done acc m ids now content hnd hgood
    unfold run_rules
    have hfresh : tr.1 ∉ done.map Prod.fst := by
      intro hmem
      exact List.disjoint_of_nodup_append hnd hmem (List.mem_cons_self _ _)
    have hstep := process_type_good m ids now content tr done acc hfresh hgood
    have hnd' : ((done ++ [tr]).map Prod.fst ++ trs.map Prod.fst).Nodup := by
      rw [List.map_append, List.append_assoc]
      exact hnd
    have hfinal := ih (done ++ [tr]) (process_type m ids now content tr acc) m ids now
      content hnd' hstep
    rw [List.append_assoc, List.singleton_append] at hfinal
    exact hfinal

/-- Helper: the invariant holds for the full `_detect_candidates` pass. -/
theorem detect_candidates_good (m : Matcher) (ids : ℕ → String) (now : Time)
    (content : String) :
    rules_good DETECTION_RULES (detect_candidates m ids now content) := by
  have h := run_rules_good DETECTION_RULES [] ⟨[], [], 0⟩ m ids now content
    (by decide) (by intro c hc; cases hc)
  exact h

/-- Claim C7 (amended): every candidate the extraction pass emits belongs to
a rule of the table; a pattern-method candidate carries
`min_confidence + 0.2` and content truncated to 200 characters (a match
only becomes a candidate if its space-joined non-empty capture groups are
longer than 3 characters and not previously extracted); a keyword-method
candidate carries `min_confidence`, and its type has no pattern-method
candidate in the output — keyword fallback is gated on "no candidate
of this type was added", not on "no pattern matched" (a matched pattern
whose extraction was suppressed still allows the fallback). -/
theorem extraction_spec :
    ∀ (m : Matcher) (ids : ℕ → String) (now : Time) (content : String) (c : Candidate),
      c ∈ detect_candidates m ids now content →
      ∃ r : Rule, (c.type, r) ∈ DETECTION_RULES ∧
        ((c.detection_method = "pattern" ∧ c.confidence = r.min_confidence + 1/5
            ∧ c.extracted_content.length ≤ 200)
         ∨ (c.detection_method = "keyword" ∧ c.confidence = r.min_confidence
            ∧ c.extracted_content.length ≤ 200
            ∧ ∀ c' ∈ detect_candidates m ids now content, c'.type = c.type →
                c'.detection_method = "keyword")) :=
  fun m ids now content c hc => detect_candidates_good m ids now content c hc

/-- Witness for `extraction_spec` at the concrete `"什么是小猫咪"` run. -/
theorem extraction_spec_witness :
    ∃ r : Rule, (c7_candidate.type, r) ∈ DETECTION_RULES ∧
      ((c7_candidate.detection_method = "pattern"
          ∧ c7_candidate.confidence = r.min_confidence + 1/5
          ∧ c7_candidate.extracted_content.length ≤ 200)
       ∨ (c7_candidate.detection_method = "keyword"
          ∧ c7_candidate.confidence = r.min_confidence
          ∧ c7_candidate.extracted_content.length ≤ 200
          ∧ ∀ c' ∈ detect_candidates m0 ids0 0 "什么是小猫咪",
              c'.type = c7_candidate.type → c'.detection_method = "keyword")) :=
  extraction_spec m0 ids0 0 "什么是小猫咪" c7_candidate
    (by simp [detect_m0_result])
